import Mathlib

/-!
Verification development for the degenbot arbitrage-cycle optimizer
(`degenbot/arbitrage/uniswap_curve_cycle.py` and its collaborators).

The Python sources are shallowly embedded: Python `int` is `Int`, Python
floor division `//` is `Int.fdiv`, fallible code returns `Except PyErr`,
and per-pool live state is carried in the pool structures.  Code paths that
require live chain reads (web3 calls inside some Curve per-pool special
cases and metapool handling) are outside the pure embedding and are marked
by the distinguished error `PyErr.unmodeled`; no theorem below depends on
the behaviour of such a path.  `Int.fdiv x 0 = 0` in Lean while Python
raises `ZeroDivisionError`; no definition below is evaluated at a
divide-by-zero input by any theorem.
-/

namespace Degenbot

/-- Python exception classes relevant to the embedded code.  The hierarchy of
`degenbot/exceptions.py` is not in the sources; the liquidity-pool subtree
below is modelled from the spec (section 6: the adapter raises one of the
typed errors LiquidityExhausted / ArithmeticRevert / InvalidInput, and
section 4.2 / 7 names them as the caught family).  `plain` stands for a bare
Python `Exception` (raised by the StableSwap solver loops in the sources on
non-convergence), which can never be an instance of a strict subclass of
`Exception` such as the typed error classes. -/
inductive PyErr where
  | zeroSwap
  | zeroLiquidity
  | liquidityPool
  | evmRevert
  | valueError
  | assertionError
  | indexError
  | attributeError
  | arbitrage
  | plain
  | unmodeled
deriving DecidableEq, Repr

/-- Modelled from the spec: the exception subtree of LiquidityPoolError.
ZeroSwapError and ZeroLiquidityError are the typed invalid-input /
liquidity-exhausted errors of the pricing adapter (spec section 6), raised
throughout the Curve pool sources, and belong to the liquidity-pool error
family that the evaluator catches (spec sections 4.2 and 7). -/
def PyErr.isLiquidityPoolError : PyErr → Bool
  | .zeroSwap | .zeroLiquidity | .liquidityPool => true
  | _ => false

/-- The exception classes caught by the `try/except` inside `arb_profit`
(`uniswap_curve_cycle.py` line 519): `except (EVMRevertError, LiquidityPoolError)`. -/
def PyErr.caughtByArbProfit (e : PyErr) : Bool :=
  e.isLiquidityPoolError || e == .evmRevert

/-- An ERC-20 token, identified by its contract address (addresses are
modelled as numbers; `erc20_token.py` is not in the sources, and the spec
treats token identity as address-equivalent). -/
structure Erc20Token where
  address : Nat
deriving DecidableEq, Repr

/-- `UniswapV2PoolState` from `uniswap/v2_dataclasses.py` (the circular
back-reference field `pool` is omitted from the embedding). -/
structure UniswapV2PoolState where
  reserves_token0 : Int
  reserves_token1 : Int
deriving DecidableEq, Repr

/-- `UniswapV2PoolSimulationResult` from `uniswap/v2_dataclasses.py`. -/
structure UniswapV2PoolSimulationResult where
  amount0_delta : Int
  amount1_delta : Int
  current_state : UniswapV2PoolState
  future_state : UniswapV2PoolState
deriving DecidableEq, Repr

/-- The V3 pool state (`uniswap/v3_dataclasses.py` is not in the sources;
the fields are the five state components read by
`V3LiquidityPool.calculate_tokens_out_from_tokens_in` in
`uniswap/v3_liquidity_pool.py`: liquidity, sqrt_price_x96, tick,
tick_bitmap and tick_data; the two map-valued components are embedded as
association lists). -/
structure UniswapV3PoolState where
  liquidity : Int
  sqrt_price_x96 : Int
  tick : Int
  tick_bitmap : List (Int × Int)
  tick_data : List (Int × Int × Int)
deriving DecidableEq, Repr

/-- Modelled from the spec: `UniswapV3PoolSimulationResult`
(`uniswap/v3_dataclasses.py` is not in the sources), mirroring the V2
simulation-result shape: the override resolver extracts only the
future-state component. -/
structure UniswapV3PoolSimulationResult where
  amount0_delta : Int
  amount1_delta : Int
  current_state : UniswapV3PoolState
  future_state : UniswapV3PoolState
deriving DecidableEq, Repr

/-- `CurveStableswapPoolState` from `curve/curve_stableswap_dataclasses.py`
(the circular back-reference field `pool` is omitted from the embedding). -/
structure CurveStableswapPoolState where
  balances : List Int
deriving DecidableEq, Repr

/-- `CurveStableswapPoolSimulationResult` from
`curve/curve_stableswap_dataclasses.py`.  Note that `_sort_overrides` in
`uniswap_curve_cycle.py` does not accept this class (it is commented out
there with a todo note). -/
structure CurveStableswapPoolSimulationResult where
  amount0_delta : Int
  amount1_delta : Int
  current_state : CurveStableswapPoolState
  future_state : CurveStableswapPoolState
deriving DecidableEq, Repr

/-- A Uniswap V2 pool (`uniswap/v2_liquidity_pool.py` is not in the
sources; fields are the identity, token pair and live reserves that the
spec's constant-product pricing adapter needs).  `objId` models Python
object identity (`is`): two list entries carrying the same `objId` denote
the same Python object. -/
structure LiquidityPool where
  objId : Nat
  address : Nat
  token0 : Erc20Token
  token1 : Erc20Token
  reserves_token0 : Int
  reserves_token1 : Int
deriving DecidableEq, Repr

/-- A Uniswap V3 pool (`uniswap/v3_liquidity_pool.py`). -/
structure V3LiquidityPool where
  objId : Nat
  address : Nat
  token0 : Erc20Token
  token1 : Erc20Token
  tick_spacing : Int
  state : UniswapV3PoolState
deriving DecidableEq, Repr

/-- A Curve StableSwap pool (`curve/curve_stableswap_liquidity_pool.py`).
The fields are the attributes read by the pure code paths of `_get_dy`,
`_get_y` and `_get_D`.  Pools with an active amplification ramp
(`initial_A`/`future_A` set) would read a live timestamp inside `_A()`;
the embedding covers pools without a ramp, for which `_A()` returns
`a_coefficient * A_PRECISION`. -/
structure CurveStableswapPool where
  objId : Nat
  address : Nat
  tokens : List Erc20Token
  balances : List Int
  a_coefficient : Int
  fee : Int
  rate_multipliers : List Int
  is_metapool : Bool
  tokens_underlying : List Erc20Token
deriving DecidableEq, Repr

def CurveStableswapPool.PRECISION : Int := 10 ^ 18

def CurveStableswapPool.FEE_DENOMINATOR : Int := 10 ^ 10

def CurveStableswapPool.A_PRECISION : Int := 100

/-- `CurveStableswapPool._A` for pools without an active ramp
(`initial_a_coefficient is None`): returns `a_coefficient * A_PRECISION`. -/
def CurveStableswapPool._A (self : CurveStableswapPool) : Int :=
  self.a_coefficient * CurveStableswapPool.A_PRECISION

/-- `CurveStableswapPool._xp`: scaled balances,
`rate * balance // PRECISION` pointwise. -/
def CurveStableswapPool._xp (rates : List Int) (balances : List Int) : List Int :=
  List.zipWith (fun rate balance => Int.fdiv (rate * balance) CurveStableswapPool.PRECISION)
    rates balances

/-- The bounded convergence loop shared by the solver iterations in
`_get_D` and `_get_y`: run the step at most `fuel` (255) times, returning
the new value as soon as one step moves by at most 1; if the loop exhausts
its iterations the Python code raises a bare `Exception`, embedded as
`PyErr.plain`. -/
def curveConvergeLoop (step : Int → Int) : Nat → Int → Except PyErr Int
  | 0, _ => .error .plain
  | fuel + 1, d =>
    let dnew := step d
    if (dnew - d).natAbs ≤ 1 then .ok dnew else curveConvergeLoop step fuel dnew

/-- Address group of the first branch of `_get_D` (integer-A pools, divisor
`x * N_COINS`). -/
def getDAddrsA : List Nat :=
  [0x06364f10B501e868329afBc005b3492902d6C763,
   0x4CA9b3063Ec5866A4B82E437059D2C43d1be596F,
   0x7fC77b5c7614E1533320Ea6DDc2Eb61fa00A9714,
   0x93054188d876f558f4a66B2EF1d97d16eDf0895B,
   0xbEbc44782C7dB0a1A60Cb6fe97d0b483032FF1C7,
   0x52EA46506B9CC5Ef470C5bf89f17Dc28bB35D85C,
   0x45F783CCE6B7FF23B2ab2D70e416cdb7D6055f51]

/-- Address group of the second branch of `_get_D` (integer-A pools,
divisor `x * N_COINS + 1`). -/
def getDAddrsB : List Nat :=
  [0xA2B47E3D5c44877cca798226B7B8118F9BFb7A56,
   0x79a8C46DeA5aDa233ABaFFD40F3A0A2B1e5A4F27,
   0xA5407eAE9Ba41422680e2e00537571bcC53efBfD]

/-- Address group of the third branch of `_get_D` (two-coin D_P formula,
scaled A). -/
def getDAddrsC : List Nat :=
  [0x1C5F80b6B68A9E1Ef25926EeE00b5255791b996B,
   0x320B564Fb9CF36933eC507a846ce230008631fd3,
   0x3Fb78e61784C9c637D560eDE23Ad57CA1294c14a,
   0x3F1B0278A9ee595635B61817630cC19DE792f506,
   0x42d7025938bEc20B69cBae5A77421082407f053A]

/-- Address group of the fourth branch of `_get_D` (scaled A, divisor
`x * N_COINS + 1`). -/
def getDAddrsD : List Nat :=
  [0xEB16Ae0052ed37f479f7fe63849198Df1765a733]

/-- `CurveStableswapPool._get_D`: iteratively solve for the StableSwap
invariant D, branching on hard-coded pool addresses exactly as the source
does.  Each branch runs its Newton-style step for at most 255 rounds and
raises a bare `Exception` (embedded as `PyErr.plain`) when the iteration
does not settle within 1. -/
def CurveStableswapPool._get_D (self : CurveStableswapPool) (_xp : List Int) (_amp : Int) :
    Except PyErr Int :=
  let nCoins : Int := self.tokens.length
  let s := _xp.foldl (· + ·) 0
  if s = 0 then .ok 0
  else
    let ann := _amp * nCoins
    let aPrec := CurveStableswapPool.A_PRECISION
    if getDAddrsA.any (fun a => decide (a = self.address)) then
      curveConvergeLoop
        (fun d =>
          let dP := _xp.foldl (fun acc x => Int.fdiv (acc * d) (x * nCoins)) d
          Int.fdiv ((ann * s + dP * nCoins) * d) ((ann - 1) * d + (nCoins + 1) * dP))
        255 s
    else if getDAddrsB.any (fun a => decide (a = self.address)) then
      curveConvergeLoop
        (fun d =>
          let dP := _xp.foldl (fun acc x => Int.fdiv (acc * d) (x * nCoins + 1)) d
          Int.fdiv ((ann * s + dP * nCoins) * d) ((ann - 1) * d + (nCoins + 1) * dP))
        255 s
    else if getDAddrsC.any (fun a => decide (a = self.address)) then
      curveConvergeLoop
        (fun d =>
          let dP :=
            Int.fdiv (Int.fdiv (Int.fdiv (d * d) (_xp.getD 0 0) * d) (_xp.getD 1 0))
              (nCoins ^ 2)
          Int.fdiv ((Int.fdiv (ann * s) aPrec + dP * nCoins) * d)
            (Int.fdiv ((ann - aPrec) * d) aPrec + (nCoins + 1) * dP))
        255 s
    else if getDAddrsD.any (fun a => decide (a = self.address)) then
      curveConvergeLoop
        (fun d =>
          let dP := _xp.foldl (fun acc x => Int.fdiv (acc * d) (x * nCoins + 1)) d
          Int.fdiv ((Int.fdiv (ann * s) aPrec + dP * nCoins) * d)
            (Int.fdiv ((ann - aPrec) * d) aPrec + (nCoins + 1) * dP))
        255 s
    else
      curveConvergeLoop
        (fun d =>
          let dP := _xp.foldl (fun acc x => Int.fdiv (acc * d) (x * nCoins)) d
          Int.fdiv ((Int.fdiv (ann * s) aPrec + dP * nCoins) * d)
            (Int.fdiv ((ann - aPrec) * d) aPrec + (nCoins + 1) * dP))
        255 s

/-- Address group of the first branch of `_get_y` (integer-A pools; its
inner sub-group divides the amplification by `A_PRECISION` first). -/
def getYAddrs : List Nat :=
  [0x06364f10B501e868329afBc005b3492902d6C763,
   0x45F783CCE6B7FF23B2ab2D70e416cdb7D6055f51,
   0x4CA9b3063Ec5866A4B82E437059D2C43d1be596F,
   0x52EA46506B9CC5Ef470C5bf89f17Dc28bB35D85C,
   0x79a8C46DeA5aDa233ABaFFD40F3A0A2B1e5A4F27,
   0x7fC77b5c7614E1533320Ea6DDc2Eb61fa00A9714,
   0x93054188d876f558f4a66B2EF1d97d16eDf0895B,
   0xA2B47E3D5c44877cca798226B7B8118F9BFb7A56,
   0xA5407eAE9Ba41422680e2e00537571bcC53efBfD,
   0xbEbc44782C7dB0a1A60Cb6fe97d0b483032FF1C7]

/-- Sub-group of `getYAddrs` whose amplification is divided by
`A_PRECISION` before use. -/
def getYAddrsScaledAmp : List Nat :=
  [0x45F783CCE6B7FF23B2ab2D70e416cdb7D6055f51,
   0x52EA46506B9CC5Ef470C5bf89f17Dc28bB35D85C,
   0x79a8C46DeA5aDa233ABaFFD40F3A0A2B1e5A4F27,
   0xA2B47E3D5c44877cca798226B7B8118F9BFb7A56,
   0xA5407eAE9Ba41422680e2e00537571bcC53efBfD]

/-- The accumulation loop of `_get_y` over the coin indices: skipping
index `j`, substituting `x` at index `i`, it accumulates the partial sum
`S_` and the product term `c` (`c = c * D // (_x * N_COINS)` per coin). -/
def getYSumC (i j : Nat) (x : Int) (xp : List Int) (d : Int) : Int × Int :=
  let nCoins : Int := xp.length
  (List.range xp.length).foldl
    (fun sc k =>
      if k = i then (sc.1 + x, Int.fdiv (sc.2 * d) (x * nCoins))
      else if k = j then sc
      else
        let xk := xp.getD k 0
        (sc.1 + xk, Int.fdiv (sc.2 * d) (xk * nCoins)))
    (0, d)

/-- `CurveStableswapPool._get_y`: solve for the post-trade balance of coin
`j` given coin `i` moves to `x`, by the iterated quadratic step
`y = (y*y + c) // (2*y + b - D)` (at most 255 rounds, then a bare
`Exception`). -/
def CurveStableswapPool._get_y (self : CurveStableswapPool) (i j : Nat) (x : Int)
    (xp : List Int) : Except PyErr Int :=
  let nCoins : Int := self.tokens.length
  if i = j then .error .assertionError
  else if nCoins ≤ (j : Int) then .error .assertionError
  else if nCoins ≤ (i : Int) then .error .assertionError
  else if getYAddrs.any (fun a => decide (a = self.address)) then
    let amp :=
      if getYAddrsScaledAmp.any (fun a => decide (a = self.address)) then
        Int.fdiv self._A CurveStableswapPool.A_PRECISION
      else self._A
    (self._get_D xp amp).bind fun d =>
      let ann := amp * nCoins
      let sc := getYSumC i j x xp d
      let c := Int.fdiv (sc.2 * d) (ann * nCoins)
      let b := sc.1 + Int.fdiv d ann
      curveConvergeLoop (fun y => Int.fdiv (y * y + c) (2 * y + b - d)) 255 d
  else
    let amp := self._A
    (self._get_D xp amp).bind fun d =>
      let ann := amp * nCoins
      let sc := getYSumC i j x xp d
      let c := Int.fdiv (sc.2 * d * CurveStableswapPool.A_PRECISION) (ann * nCoins)
      let b := sc.1 + Int.fdiv (d * CurveStableswapPool.A_PRECISION) ann
      curveConvergeLoop (fun y => Int.fdiv (y * y + c) (2 * y + b - d)) 255 d

/-- Addresses of the `_get_dy` branches that read live chain state (token
balances, admin balances, oracle or lending rates, external contract
views); these code paths are outside the pure embedding. -/
def getDyChainReadAddrs : List Nat :=
  [0x4e0915C88bC70750D68C481540F081fEFaF22273,
   0x1005F7406f32a61BD760CfA14aCCd2737913d546,
   0x6A274dE3e2462c7614702474D64d376729831dCa,
   0xb9446c4Ef5EBE66268dA6700D26f96273DE3d571,
   0x3Fb78e61784C9c637D560eDE23Ad57CA1294c14a,
   0x618788357D0EBd8A37e763ADab3bc575D54c2C7d,
   0x80466c64868E1ab14a1Ddf27A676C3fcBE638Fe5]

/-- Addresses of the `_get_dy` branch that scales `dy` by the rate before
applying the fee (`dy = (xp[j] - y - 1) * PRECISION // rates[j]` then
`return dy - fee`). -/
def getDyRateThenFeeAddrs : List Nat :=
  [0x7fC77b5c7614E1533320Ea6DDc2Eb61fa00A9714,
   0x93054188d876f558f4a66B2EF1d97d16eDf0895B,
   0xbEbc44782C7dB0a1A60Cb6fe97d0b483032FF1C7,
   0x4CA9b3063Ec5866A4B82E437059D2C43d1be596F]

/-- Addresses of the large `_get_dy` branch whose formula matches the
generic fall-through (`return (dy - fee) * PRECISION // rates[j]`). -/
def getDyGenericListAddrs : List Nat :=
  [0x0Ce6a5fF5217e38315f87032CF90686C96627CAA,
   0x19b080FE1ffA0553469D20Ca36219F17Fcf03859,
   0x1C5F80b6B68A9E1Ef25926EeE00b5255791b996B,
   0x1F6bb2a7a2A84d08bb821B89E38cA651175aeDd4,
   0x21B45B2c1C53fDFe378Ed1955E8Cc29aE8cE0132,
   0x3CFAa1596777CAD9f5004F9a0c443d912E262243,
   0x3F1B0278A9ee595635B61817630cC19DE792f506,
   0x4424b4A37ba0088D8a718b8fc2aB7952C7e695F5,
   0x602a9Abb10582768Fd8a9f13aD6316Ac2A5A2e2B,
   0x8461A004b50d321CB22B7d034969cE6803911899,
   0x857110B5f8eFD66CC3762abb935315630AC770B5,
   0x8818a9bb44Fbf33502bE7c15c500d0C783B73067,
   0x9c2C8910F113181783c249d8F6Aa41b51Cde0f0c,
   0xa1F8A6807c402E4A15ef4EBa36528A3FED24E577,
   0xaE34574AC03A15cd58A92DC79De7B1A0800F1CE3,
   0xAf25fFe6bA5A8a29665adCfA6D30C5Ae56CA0Cd3,
   0xBa3436Fd341F2C8A928452Db3C5A3670d1d5Cc73,
   0xbB2dC673E1091abCA3eaDB622b18f6D4634b2CD9,
   0xc5424B857f758E906013F3555Dad202e4bdB4567,
   0xc8a7C1c4B748970F57cA59326BcD49F5c9dc43E3,
   0xcbD5cC53C5b846671C6434Ab301AD4d210c21184,
   0xD6Ac1CB9019137a896343Da59dDE6d097F710538,
   0xD7C10449A6D134A9ed37e2922F8474EAc6E5c100,
   0xDC24316b9AE028F1497c275EB9192a3Ea0f67022,
   0xDcEF968d416a41Cdac0ED8702fAC8128A64241A2,
   0xe7A3b38c39F97E977723bd1239C3470702568e7B,
   0xf083FBa98dED0f9C970e5a418500bad08D8b9732,
   0xF178C0b5Bb7e7aBF4e12A4838C7b7c5bA2C623c0,
   0xf253f83AcA21aAbD2A20553AE0BF7F65C755A07F,
   0xfC8c34a3B3CFE1F1Dd6DBCCEC4BC5d3103b80FF0,
   0xFD5dB7463a3aB53fD211b4af195c5BCCC1A03890]

/-- Addresses of the `_get_dy` branch that uses the raw balances as `xp`
(no rate scaling). -/
def getDyRawBalancesAddrs : List Nat :=
  [0x48fF31bBbD8Ab553Ebe7cBD84e1eA3dBa8f54957,
   0x320B564Fb9CF36933eC507a846ce230008631fd3,
   0x875DF0bA24ccD867f8217593ee27253280772A97,
   0x9D0464996170c6B9e75eED71c68B99dDEDf279e8,
   0x55A8a39bc9694714E2874c1ce77aa1E599461E18,
   0xf03bD3cfE85f00bF5819AC20f0870cE8a8d1F0D8,
   0x04c90C198b2eFF55716079bc06d7CCc4aa4d7512,
   0xFB9a265b5a1f52d97838Ec7274A0b1442efAcC87,
   0xDa5B670CcD418a187a3066674A8002Adc9356Ad1,
   0xBaaa1F5DbA42C3389bDbc2c9D2dE134F5cD0Dc89]

/-- Addresses of the remaining `_get_dy` special branches, every one of
which derives its rates from live chain reads (ctoken / ytoken / cytoken /
aeth / reth stored rates, oracle rates, or live token balances); merged
into one unmodeled group because they are all outside the pure embedding. -/
def getDyLaterChainReadAddrs : List Nat :=
  [0x59Ab5a5b5d617E478a2479B0cAD80DA7e2831492,
   0xBfAb6FA95E0091ed66058ad493189D2cB29385E6,
   0xA2B47E3D5c44877cca798226B7B8118F9BFb7A56,
   0xA5407eAE9Ba41422680e2e00537571bcC53efBfD,
   0x52EA46506B9CC5Ef470C5bf89f17Dc28bB35D85C,
   0x2dded6Da1BF5DBdF597C45fcFaa3194e53EcfeAF,
   0x06364f10B501e868329afBc005b3492902d6C763,
   0x79a8C46DeA5aDa233ABaFFD40F3A0A2B1e5A4F27,
   0x45F783CCE6B7FF23B2ab2D70e416cdb7D6055f51,
   0xA96A65c051bF88B4095Ee1f2451C2A9d43F53Ae2,
   0xF9440930043eb3997fc70e1339dBb11F341de7A8,
   0xEB16Ae0052ed37f479f7fe63849198Df1765a733,
   0xDeBF20617708857ebe4F679508E7b7863a8A8EeE]

/-- `CurveStableswapPool._get_dy`: quote the output of trading `dx` of coin
`i` for coin `j`, dispatching on the pool address in source order.  The
branches requiring live chain reads are unmodeled; the three pure special
branches and the generic fall-through are embedded. -/
def CurveStableswapPool._get_dy (self : CurveStableswapPool) (i j : Nat) (dx : Int) :
    Except PyErr Int :=
  let prec := CurveStableswapPool.PRECISION
  let feeDen := CurveStableswapPool.FEE_DENOMINATOR
  if getDyChainReadAddrs.any (fun a => decide (a = self.address)) then .error .unmodeled
  else if self.is_metapool then .error .unmodeled
  else if getDyRateThenFeeAddrs.any (fun a => decide (a = self.address)) then
    let rates := self.rate_multipliers
    let xp := CurveStableswapPool._xp rates self.balances
    let x := xp.getD i 0 + Int.fdiv (dx * rates.getD i 0) prec
    (self._get_y i j x xp).map fun y =>
      let dy := Int.fdiv ((xp.getD j 0 - y - 1) * prec) (rates.getD j 0)
      let fee := Int.fdiv (self.fee * dy) feeDen
      dy - fee
  else if getDyGenericListAddrs.any (fun a => decide (a = self.address)) then
    let rates := self.rate_multipliers
    let xp := CurveStableswapPool._xp rates self.balances
    let x := xp.getD i 0 + Int.fdiv (dx * rates.getD i 0) prec
    (self._get_y i j x xp).map fun y =>
      let dy := xp.getD j 0 - y - 1
      let fee := Int.fdiv (self.fee * dy) feeDen
      Int.fdiv ((dy - fee) * prec) (rates.getD j 0)
  else if getDyRawBalancesAddrs.any (fun a => decide (a = self.address)) then
    let xp := self.balances
    let x := xp.getD i 0 + dx
    (self._get_y i j x xp).map fun y =>
      let dy := xp.getD j 0 - y - 1
      let fee := Int.fdiv (self.fee * dy) feeDen
      dy - fee
  else if getDyLaterChainReadAddrs.any (fun a => decide (a = self.address)) then
    .error .unmodeled
  else
    let rates := self.rate_multipliers
    let xp := CurveStableswapPool._xp rates self.balances
    let x := xp.getD i 0 + Int.fdiv (dx * rates.getD i 0) prec
    (self._get_y i j x xp).map fun y =>
      let dy := xp.getD j 0 - y - 1
      let fee := Int.fdiv (self.fee * dy) feeDen
      Int.fdiv ((dy - fee) * prec) (rates.getD j 0)

/-- One live pool state of any of the three variants (the `PoolStates`
type alias of `uniswap_curve_cycle.py`). -/
inductive PoolState where
  | v2 (s : UniswapV2PoolState)
  | v3 (s : UniswapV3PoolState)
  | curve (s : CurveStableswapPoolState)
deriving DecidableEq, Repr

/-- `CurveStableswapPool.calculate_tokens_out_from_tokens_in`.  Note that
the supplied override state is only logged by the source (its application
to the calculation is an explicit todo there), so the quote is computed
from the live balances even when an override is present; a wrong-variant
override object raises an `AttributeError` when the log line reads its
`balances` attribute.  The metapool branches call `_get_dy_underlying`,
which reads the live base-pool virtual price from the chain, and are
therefore unmodeled. -/
def CurveStableswapPool.calculate_tokens_out_from_tokens_in (self : CurveStableswapPool)
    (token_in token_out : Erc20Token) (token_in_quantity : Int)
    (override_state : Option PoolState) : Except PyErr Int :=
  if token_in_quantity ≤ 0 then .error .zeroSwap
  else
    match override_state with
    | some (.v2 _) => .error .attributeError
    | some (.v3 _) => .error .attributeError
    | _ =>
      let inHeld := self.tokens.any (fun t => decide (t = token_in))
      let outHeld := self.tokens.any (fun t => decide (t = token_out))
      if inHeld && outHeld then
        if self.balances.any (fun balance => decide (balance = 0)) then .error .zeroLiquidity
        else
          match self.tokens.findIdx? (fun t => decide (t = token_in)),
              self.tokens.findIdx? (fun t => decide (t = token_out)) with
          | some i, some j => self._get_dy i j token_in_quantity
          | _, _ => .error .valueError
      else if self.is_metapool then .error .unmodeled
      else .error .valueError

/-- Modelled from the spec: `LiquidityPool.calculate_tokens_out_from_tokens_in`
(`uniswap/v2_liquidity_pool.py` is not in the sources).  Per the spec, the
constant-product adapter is a pure quote over the reserve pair, using the
override state in place of the live reserves when supplied, charging the
0.3 percent V2 fee, and raising a typed liquidity-pool-family error on a
non-positive input quantity or an empty reserve.  A wrong-variant override
object raises an `AttributeError` when its reserve attributes are read. -/
def LiquidityPool.calculate_tokens_out_from_tokens_in (self : LiquidityPool)
    (token_in : Erc20Token) (token_in_quantity : Int)
    (override_state : Option PoolState) : Except PyErr Int :=
  match override_state with
  | some (.v3 _) => .error .attributeError
  | some (.curve _) => .error .attributeError
  | _ =>
    let r0 := match override_state with
      | some (.v2 s) => s.reserves_token0
      | _ => self.reserves_token0
    let r1 := match override_state with
      | some (.v2 s) => s.reserves_token1
      | _ => self.reserves_token1
    if token_in_quantity ≤ 0 then .error .zeroSwap
    else if r0 = 0 ∨ r1 = 0 then .error .zeroLiquidity
    else if token_in = self.token0 then
      .ok (Int.fdiv (997 * token_in_quantity * r1) (1000 * r0 + 997 * token_in_quantity))
    else if token_in = self.token1 then
      .ok (Int.fdiv (997 * token_in_quantity * r0) (1000 * r1 + 997 * token_in_quantity))
    else .error .valueError

/-- Modelled from the spec: the sqrt-price bounds exported by the TickMath
module (`uniswap/v3_libraries` is not in the sources); these are the
minimum and maximum representable sqrt prices of a V3 pool, referenced by
the spec as the extreme price bounds. -/
def TickMath.MIN_SQRT_RATIO : Int := 4295128739

/-- Modelled from the spec: see `TickMath.MIN_SQRT_RATIO`. -/
def TickMath.MAX_SQRT_RATIO : Int := 1461446703485210103287273052203988822378723970342

/-- Modelled from the spec: the tick-crossing core loop of
`V3LiquidityPool._uniswap_v3_pool_swap` (it depends on the TickMath /
SwapMath / TickBitmap libraries, which are not in the sources, and may
fetch missing bitmap words from the chain for sparse pools).  Per the spec
the pricing engine is an external black box, deterministic given the pool
state; it is therefore a function parameter taking the tick spacing, the
swap direction, the specified amount, the price limit and the effective
(live or overridden) state, and returning the `(amount0, amount1)` deltas
or a typed error. -/
def V3SwapCore : Type :=
  Int → Bool → Int → Int → UniswapV3PoolState → Except PyErr (Int × Int)

/-- The head of `V3LiquidityPool._uniswap_v3_pool_swap` that is present in
the sources: reject a zero specified amount and an out-of-range or
wrong-side price limit with an `EVMRevertError`, then run the tick-crossing
core on the effective state. -/
def V3LiquidityPool._uniswap_v3_pool_swap (core : V3SwapCore) (self : V3LiquidityPool)
    (zeroForOne : Bool) (amount_specified sqrt_price_limit_x96 : Int)
    (eff : UniswapV3PoolState) : Except PyErr (Int × Int) :=
  if amount_specified = 0 then .error .evmRevert
  else if ¬ (if zeroForOne then
        sqrt_price_limit_x96 < eff.sqrt_price_x96 ∧
          TickMath.MIN_SQRT_RATIO < sqrt_price_limit_x96
      else
        eff.sqrt_price_x96 < sqrt_price_limit_x96 ∧
          sqrt_price_limit_x96 < TickMath.MAX_SQRT_RATIO) then .error .evmRevert
  else core self.tick_spacing zeroForOne amount_specified sqrt_price_limit_x96 eff

/-- `V3LiquidityPool.calculate_tokens_out_from_tokens_in`
(`uniswap/v3_liquidity_pool.py` lines 688-752): check token membership,
derive the direction from `token0`, select every state field from the
override when one is supplied (falling back to the live state otherwise),
run the swap with the extreme price limit for the direction, convert an
`EVMRevertError` into a `LiquidityPoolError`, and return the negated
output-side delta.  A wrong-variant override object raises an
`AttributeError` when its state attributes are read. -/
def V3LiquidityPool.calculate_tokens_out_from_tokens_in (core : V3SwapCore)
    (self : V3LiquidityPool) (token_in : Erc20Token) (token_in_quantity : Int)
    (override_state : Option PoolState) : Except PyErr Int :=
  if token_in ≠ self.token0 ∧ token_in ≠ self.token1 then .error .valueError
  else
    match override_state with
    | some (.v2 _) => .error .attributeError
    | some (.curve _) => .error .attributeError
    | _ =>
      let _is_zero_for_one := token_in = self.token0
      let eff : UniswapV3PoolState :=
        { liquidity := match override_state with
            | some (.v3 s) => s.liquidity
            | _ => self.state.liquidity
          sqrt_price_x96 := match override_state with
            | some (.v3 s) => s.sqrt_price_x96
            | _ => self.state.sqrt_price_x96
          tick := match override_state with
            | some (.v3 s) => s.tick
            | _ => self.state.tick
          tick_bitmap := match override_state with
            | some (.v3 s) => s.tick_bitmap
            | _ => self.state.tick_bitmap
          tick_data := match override_state with
            | some (.v3 s) => s.tick_data
            | _ => self.state.tick_data }
      match self._uniswap_v3_pool_swap core (decide _is_zero_for_one) token_in_quantity
          (if _is_zero_for_one then TickMath.MIN_SQRT_RATIO + 1
           else TickMath.MAX_SQRT_RATIO - 1) eff with
      | .error .evmRevert => .error .liquidityPool
      | .error e => .error e
      | .ok (amount0_delta, amount1_delta) =>
        .ok (if _is_zero_for_one then -amount1_delta else -amount0_delta)

/-- One pool of any of the three variants (the `Pools` type alias of
`uniswap_curve_cycle.py`). -/
inductive Pool where
  | v2 (p : LiquidityPool)
  | v3 (p : V3LiquidityPool)
  | curve (p : CurveStableswapPool)
deriving DecidableEq, Repr

def Pool.address : Pool → Nat
  | .v2 p => p.address
  | .v3 p => p.address
  | .curve p => p.address

def Pool.objId : Pool → Nat
  | .v2 p => p.objId
  | .v3 p => p.objId
  | .curve p => p.objId

/-- The `tokens` attribute every pool class exposes: the ordered token
list (the two-token pools expose `[token0, token1]`). -/
def Pool.tokensList : Pool → List Erc20Token
  | .v2 p => [p.token0, p.token1]
  | .v3 p => [p.token0, p.token1]
  | .curve p => p.tokens

/-- The `state` property of a pool: a snapshot of its live numeric state. -/
def Pool.state : Pool → PoolState
  | .v2 p => .v2 { reserves_token0 := p.reserves_token0, reserves_token1 := p.reserves_token1 }
  | .v3 p => .v3 p.state
  | .curve p => .curve { balances := p.balances }

/-- Modelled from the spec: `UniswapPoolSwapVector` from
`arbitrage/arbitrage_dataclasses.py` (not in the sources) — the spec's Swap
Vector for a two-token pool: input token, output token and the boolean
direction flag. -/
structure UniswapPoolSwapVector where
  token_in : Erc20Token
  token_out : Erc20Token
  zero_for_one : Bool
deriving DecidableEq, Repr

/-- Modelled from the spec: `CurveStableSwapPoolVector` from
`arbitrage/arbitrage_dataclasses.py` (not in the sources) — the spec's Swap
Vector for a multi-token pool: input and output tokens plus their coin
indices. -/
structure CurveStableSwapPoolVector where
  token_in : Erc20Token
  token_out : Erc20Token
  token_in_index : Nat
  token_out_index : Nat
deriving DecidableEq, Repr

/-- A swap vector of either shape. -/
inductive SwapVector where
  | uniswap (v : UniswapPoolSwapVector)
  | curve (v : CurveStableSwapPoolVector)
deriving DecidableEq, Repr

def SwapVector.token_in : SwapVector → Erc20Token
  | .uniswap v => v.token_in
  | .curve v => v.token_in

def SwapVector.token_out : SwapVector → Erc20Token
  | .uniswap v => v.token_out
  | .curve v => v.token_out

/-- The shared-token computation of the Curve branch of the swap-vector
derivation: `list(set(pool.tokens).intersection(next_pool.tokens))`,
embedded as the deduplicated sublist of the Curve pool's tokens held by
the next pool. -/
def curveSharedTokens (p : CurveStableswapPool) (next_pool : Pool) : List Erc20Token :=
  (p.tokens.filter (fun t => next_pool.tokensList.any (fun u => decide (u = t)))).dedup

/-- The swap-vector derivation loop of `UniswapCurveCycle.__init__`
(`uniswap_curve_cycle.py` lines 96-158).  `token_out` carries the running
output token (initially the cycle's input token, which the first two-token
pool matches with exactly the same rule as later ones).  A two-token pool
that holds neither candidate token, a Curve pool at a position other than
1, or a missing `tokens.index` raise `ValueError`; a shared-token set
without exactly one member fails the `assert`; a Curve pool in the last
position raises `IndexError` reading `swap_pools[i + 1]`. -/
def deriveSwapVectors : Nat → Erc20Token → List Pool → Except PyErr (List SwapVector)
  | _, _, [] => .ok []
  | i, token_out, pool :: rest =>
    match pool with
    | .v2 p =>
      if token_out = p.token0 then
        (deriveSwapVectors (i + 1) p.token1 rest).map
          (SwapVector.uniswap
            { token_in := p.token0, token_out := p.token1, zero_for_one := true } :: ·)
      else if token_out = p.token1 then
        (deriveSwapVectors (i + 1) p.token0 rest).map
          (SwapVector.uniswap
            { token_in := p.token1, token_out := p.token0, zero_for_one := false } :: ·)
      else .error .valueError
    | .v3 p =>
      if token_out = p.token0 then
        (deriveSwapVectors (i + 1) p.token1 rest).map
          (SwapVector.uniswap
            { token_in := p.token0, token_out := p.token1, zero_for_one := true } :: ·)
      else if token_out = p.token1 then
        (deriveSwapVectors (i + 1) p.token0 rest).map
          (SwapVector.uniswap
            { token_in := p.token1, token_out := p.token0, zero_for_one := false } :: ·)
      else .error .valueError
    | .curve p =>
      if i = 1 then
        let token_in := token_out
        match rest with
        | [] => .error .indexError
        | next_pool :: _ =>
          let shared := curveSharedTokens p next_pool
          if shared.length ≠ 1 then .error .assertionError
          else
            let token_out' := shared.headD token_in
            match p.tokens.findIdx? (fun t => decide (t = token_in)),
                p.tokens.findIdx? (fun t => decide (t = token_out')) with
            | some token_in_index, some token_out_index =>
              (deriveSwapVectors (i + 1) token_out' rest).map
                (SwapVector.curve
                  { token_in := token_in, token_out := token_out',
                    token_in_index := token_in_index,
                    token_out_index := token_out_index } :: ·)
            | _, _ => .error .valueError
      else .error .valueError

/-- The `UniswapCurveCycle` helper: pools, input token, identifier, bound,
derived swap vectors, and the notification-fed cache of last observed pool
states (an insertion-ordered map keyed by pool address). -/
structure UniswapCurveCycle where
  input_token : Erc20Token
  swap_pools : List Pool
  id : String
  max_input : Int
  _swap_vectors : List SwapVector
  pool_states : List (Nat × PoolState)
deriving DecidableEq, Repr

/-- Insertion-ordered map update, matching Python dict assignment: replace
the value in place when the key is present, append otherwise. -/
def mapInsert {α : Type} (m : List (Nat × α)) (k : Nat) (v : α) : List (Nat × α) :=
  if m.any (fun kv => decide (kv.1 = k)) then
    m.map (fun kv => if kv.1 = k then (k, v) else kv)
  else m ++ [(k, v)]

/-- Python dict lookup (`dict.get`). -/
def mapGet {α : Type} (m : List (Nat × α)) (k : Nat) : Option α :=
  (m.find? (fun kv => decide (kv.1 = k))).map (fun kv => kv.2)

/-- `UniswapCurveCycle.__init__`: store the pool list, the input token and
the identifier, default the maximum input to 100 whole 18-decimal units
(with a warning) when none is given, derive the swap vectors once, and
start with an empty pool-state cache. -/
def UniswapCurveCycle.mk? (input_token : Erc20Token) (swap_pools : List Pool) (id : String)
    (max_input : Option Int) : Except PyErr UniswapCurveCycle :=
  let mi := match max_input with
    | none => 100 * 10 ^ 18
    | some m => m
  (deriveSwapVectors 0 input_token swap_pools).map fun vecs =>
    { input_token := input_token, swap_pools := swap_pools, id := id, max_input := mi,
      _swap_vectors := vecs, pool_states := [] }

/-- `UniswapCurveCycle._update_pool_states`: merge the address-keyed states
of the given pools into the cache. -/
def UniswapCurveCycle._update_pool_states (self : UniswapCurveCycle) (pools : List Pool) :
    UniswapCurveCycle :=
  { self with
    pool_states := pools.foldl (fun m pool => mapInsert m pool.address pool.state)
      self.pool_states }

/-- `UniswapCurveCycle.notify` (`uniswap_curve_cycle.py` lines 828-831): on
a notification from a publishing pool, update the cached pool state — but
only when the publisher is a Uniswap V2 or V3 pool; the isinstance guard
does not include Curve pools, whose notifications are ignored. -/
def UniswapCurveCycle.notify (self : UniswapCurveCycle) (publisher : Pool) :
    UniswapCurveCycle :=
  match publisher with
  | .v2 _ => self._update_pool_states [publisher]
  | .v3 _ => self._update_pool_states [publisher]
  | .curve _ => self

/-- A state-override value as supplied by a caller: a raw pool state or a
simulation result, of any pool variant (the `StateOverrides` alias of
`uniswap_curve_cycle.py` admits the raw states and the V2/V3 simulation
results; a Curve simulation result is representable by a caller but is not
among the accepted classes). -/
inductive OverrideValue where
  | curveState (s : CurveStableswapPoolState)
  | v2State (s : UniswapV2PoolState)
  | v3State (s : UniswapV3PoolState)
  | v2Sim (r : UniswapV2PoolSimulationResult)
  | v3Sim (r : UniswapV3PoolSimulationResult)
  | curveSim (r : CurveStableswapPoolSimulationResult)
deriving DecidableEq, Repr

/-- The processing loop of `_sort_overrides`: raw states are inserted as
they are, V2/V3 simulation results contribute their `future_state`, and
any other value (in particular a Curve simulation result) raises a
`ValueError` immediately. -/
def sortOverridesGo : List (Pool × OverrideValue) → List (Nat × PoolState) →
    Except PyErr (List (Nat × PoolState))
  | [], acc => .ok acc
  | (pool, override) :: rest, acc =>
    match override with
    | .curveState s => sortOverridesGo rest (mapInsert acc pool.address (.curve s))
    | .v2State s => sortOverridesGo rest (mapInsert acc pool.address (.v2 s))
    | .v3State s => sortOverridesGo rest (mapInsert acc pool.address (.v3 s))
    | .v2Sim r => sortOverridesGo rest (mapInsert acc pool.address (.v2 r.future_state))
    | .v3Sim r => sortOverridesGo rest (mapInsert acc pool.address (.v3 r.future_state))
    | .curveSim _ => .error .valueError

/-- `UniswapCurveCycle._sort_overrides` (`uniswap_curve_cycle.py` lines
187-225): an absent override collection resolves to the empty map,
otherwise the pairs are validated and inserted keyed by pool address. -/
def UniswapCurveCycle._sort_overrides (overrides : Option (List (Pool × OverrideValue))) :
    Except PyErr (List (Nat × PoolState)) :=
  match overrides with
  | none => .ok []
  | some l => sortOverridesGo l []

/-- The per-leg pricing call shared by `arb_profit` and
`_build_amounts_out` (`uniswap_curve_cycle.py` lines 500-517 and 264-303):
dispatch on the pool variant, look up the override by pool address, and
invoke the pool's quote with the vector's tokens. -/
def legQuote (core : V3SwapCore) (ov : List (Nat × PoolState)) (pool : Pool)
    (vector : SwapVector) (q : Int) : Except PyErr Int :=
  match pool with
  | .v2 p => p.calculate_tokens_out_from_tokens_in vector.token_in q (mapGet ov p.address)
  | .v3 p =>
    V3LiquidityPool.calculate_tokens_out_from_tokens_in core p vector.token_in q
      (mapGet ov p.address)
  | .curve p =>
    p.calculate_tokens_out_from_tokens_in vector.token_in vector.token_out q
      (mapGet ov p.address)

/-- The loop of `arb_profit` (`uniswap_curve_cycle.py` lines 488-525):
thread the running quantity through the legs, and on an `EVMRevertError`
or `LiquidityPoolError` from a quote pretend the swap produced zero and
stop; every other exception propagates. -/
def arbProfitLegs (core : V3SwapCore) (ov : List (Nat × PoolState)) :
    Int → List (Pool × SwapVector) → Except PyErr Int
  | q, [] => .ok q
  | q, (pool, vector) :: rest =>
    match legQuote core ov pool vector q with
    | .ok out => arbProfitLegs core ov out rest
    | .error e => if e.caughtByArbProfit then .ok 0 else .error e

/-- Python `int()` applied to a real probe value: truncation toward zero. -/
def pyInt (x : ℚ) : Int :=
  if 0 ≤ x then x.floor else -((-x).floor)

/-- `arb_profit` (`uniswap_curve_cycle.py` lines 484-530): round the probed
real input down to an integer, thread it through every (pool, vector) leg
with the caught-error-to-zero behaviour of `arbProfitLegs`, and return the
negated profit `-(token_out_quantity - token_in_quantity)` as a real.  The
output quantity starts at zero, so an empty leg list returns the negated
profit of zero output. -/
def arb_profit (core : V3SwapCore) (self : UniswapCurveCycle)
    (state_overrides : List (Nat × PoolState)) (x : ℚ) : Except PyErr ℚ :=
  let token_in_quantity := pyInt x
  match self.swap_pools.zip self._swap_vectors with
  | [] => .ok ((-((0 : Int) - token_in_quantity) : Int) : ℚ)
  | leg :: legs =>
    (arbProfitLegs core state_overrides token_in_quantity (leg :: legs)).map
      fun token_out_quantity =>
        ((-(token_out_quantity - token_in_quantity) : Int) : ℚ)

/-- Modelled from the spec: the Cycle Evaluator contract of section 4.2 —
thread the integer amount through every (pool, vector) leg in order via
the same per-leg pricing calls, propagating every pricing error.  This is
the comparison definition the optimizer-objective claim is stated
against. -/
def evaluateCycleLegs (core : V3SwapCore) (ov : List (Nat × PoolState)) :
    Int → List (Pool × SwapVector) → Except PyErr Int
  | q, [] => .ok q
  | q, (pool, vector) :: rest =>
    (legQuote core ov pool vector q).bind fun out => evaluateCycleLegs core ov out rest

/-- Modelled from the spec: `UniswapV2PoolSwapAmounts` from
`arbitrage/arbitrage_dataclasses.py` (not in the sources) — the spec's
constant-product Swap Amount: the two-slot output tuple. -/
structure UniswapV2PoolSwapAmounts where
  amounts : Int × Int
deriving DecidableEq, Repr

/-- Modelled from the spec: `UniswapV3PoolSwapAmounts` from
`arbitrage/arbitrage_dataclasses.py` (not in the sources) — the spec's
concentrated-liquidity Swap Amount: signed specified amount, direction
flag and price limit. -/
structure UniswapV3PoolSwapAmounts where
  amount_specified : Int
  zero_for_one : Bool
  sqrt_price_limit_x96 : Int
deriving DecidableEq, Repr

/-- Modelled from the spec: `CurveStableSwapPoolSwapAmounts` from
`arbitrage/arbitrage_dataclasses.py` (not in the sources) — the spec's
invariant-pool Swap Amount: tokens, coin indices, input amount, minimum
acceptable output and the underlying-asset flag. -/
structure CurveStableSwapPoolSwapAmounts where
  token_in : Erc20Token
  token_in_index : Nat
  token_out : Erc20Token
  token_out_index : Nat
  amount_in : Int
  min_amount_out : Int
  underlying : Bool
deriving DecidableEq, Repr

/-- A swap amount of any of the three variants (the `SwapAmount` type
alias of `uniswap_curve_cycle.py`). -/
inductive SwapAmount where
  | v2 (a : UniswapV2PoolSwapAmounts)
  | v3 (a : UniswapV3PoolSwapAmounts)
  | curve (a : CurveStableSwapPoolSwapAmounts)
deriving DecidableEq, Repr

/-- The wrapped pricing call of the `_build_amounts_out` loop
(`uniswap_curve_cycle.py` lines 263-308): a `LiquidityPoolError` from the
quote is re-raised as an `ArbitrageError`, every other exception
propagates, and a zero output quantity raises an `ArbitrageError`. -/
def buildLegQuote (core : V3SwapCore) (ov : List (Nat × PoolState)) (pool : Pool)
    (vector : SwapVector) (q : Int) : Except PyErr Int :=
  match legQuote core ov pool vector q with
  | .error e => if e.isLiquidityPoolError then .error .arbitrage else .error e
  | .ok out => if out = 0 then .error .arbitrage else .ok out

/-- The loop of `_build_amounts_out` (`uniswap_curve_cycle.py` lines
246-354).  It carries the mutable `token_in` variable of the source, which
every iteration overwrites from the leg's swap vector before any use; a
vector whose shape does not match the pool variant fails the source's
`assert isinstance`.  Per leg it quotes the running quantity and then
appends the pool-type-specific swap amount: the oriented two-slot tuple
for V2, the (input amount, direction, extreme price limit) triple for V3,
and the full Curve record including the recomputed coin indices (a missing
`tokens.index` raises `ValueError`) and the metapool underlying flag. -/
def buildAmountsLegs (core : V3SwapCore) (ov : List (Nat × PoolState)) :
    Erc20Token → Int → List (Pool × SwapVector) → Except PyErr (List SwapAmount)
  | _, _, [] => .ok []
  | _token_in, q, (pool, vector) :: rest =>
    match pool, vector with
    | .v2 _, .uniswap u =>
      (buildLegQuote core ov pool vector q).bind fun out =>
        (buildAmountsLegs core ov u.token_in out rest).map
          (SwapAmount.v2
            { amounts := if u.zero_for_one then (0, out) else (out, 0) } :: ·)
    | .v3 _, .uniswap u =>
      (buildLegQuote core ov pool vector q).bind fun out =>
        (buildAmountsLegs core ov u.token_in out rest).map
          (SwapAmount.v3
            { amount_specified := q, zero_for_one := u.zero_for_one,
              sqrt_price_limit_x96 :=
                if u.zero_for_one then TickMath.MIN_SQRT_RATIO + 1
                else TickMath.MAX_SQRT_RATIO - 1 } :: ·)
    | .curve p, .curve cv =>
      (buildLegQuote core ov pool vector q).bind fun out =>
        match p.tokens.findIdx? (fun t => decide (t = cv.token_in)),
            p.tokens.findIdx? (fun t => decide (t = cv.token_out)) with
        | some token_in_index, some token_out_index =>
          (buildAmountsLegs core ov cv.token_in out rest).map
            (SwapAmount.curve
              { token_in := cv.token_in, token_in_index := token_in_index,
                token_out := cv.token_out, token_out_index := token_out_index,
                amount_in := q, min_amount_out := out,
                underlying :=
                  p.is_metapool &&
                    (p.tokens_underlying.any (fun t => decide (t = cv.token_in)) ||
                      p.tokens_underlying.any (fun t => decide (t = cv.token_out))) } :: ·)
        | _, _ => .error .valueError
    | _, _ => .error .assertionError

/-- `UniswapCurveCycle._build_amounts_out` (`uniswap_curve_cycle.py` lines
227-354): run the leg loop over the zipped pools and vectors, starting
from the caller's token and quantity. -/
def UniswapCurveCycle._build_amounts_out (core : V3SwapCore) (self : UniswapCurveCycle)
    (token_in : Erc20Token) (token_in_quantity : Int)
    (pool_state_overrides : List (Nat × PoolState)) : Except PyErr (List SwapAmount) :=
  buildAmountsLegs core pool_state_overrides token_in token_in_quantity
    (self.swap_pools.zip self._swap_vectors)

/-- The calldata built by `generate_payloads`, embedded as the called
function selector with its decoded arguments (the source encodes these as
ABI byte strings; the empty trailing bytes arguments are omitted). -/
inductive Calldata where
  | transfer (to_address : Nat) (amount : Int)
  | v2swap (amount0_out amount1_out : Int) (to_address : Nat)
  | v3swap (recipient : Nat) (zero_for_one : Bool) (amount_specified sqrt_price_limit_x96 : Int)
  | approve (spender : Nat) (amount : Int)
  | exchange (i j : Nat) (dx min_dy : Int)
deriving DecidableEq, Repr

/-- One payload entry: target address, calldata and the attached value
(always zero for this arbitrage). -/
abbrev Payload : Type := Nat × Calldata × Int

def MAX_UINT256 : Int := 2 ^ 256 - 1

/-- Modelled from the spec: `Erc20Token.get_approval` (`erc20_token.py` is
not in the sources) reads the live on-chain allowance of a spender; it is
a function parameter of the payload builder, mapping (token, owner,
spender) to the current approval. -/
def ApprovalReader : Type := Erc20Token → Nat → Nat → Int

/-- The destination selection of the `generate_payloads` loop
(`uniswap_curve_cycle.py` lines 682-705): when the leg's pool is the last
pool — compared by object identity (`is`) — there is no next pool and the
output goes to the sending address; otherwise a next V2 pool receives the
output directly at its own address, while a next V3 or Curve pool (which
cannot accept a pre-swap transfer) leaves the output at the sending
address.  The index lookup cannot miss for a leg whose pool is not the
last element. -/
def swapDestination (swap_pools : List Pool) (last_pool : Pool) (from_address : Nat)
    (i : Nat) (swap_pool : Pool) : Nat :=
  if swap_pool.objId = last_pool.objId then from_address
  else
    match swap_pools.get? (i + 1) with
    | some (.v2 np) => np.address
    | some _ => from_address
    | none => from_address

/-- The per-leg payload construction of `generate_payloads`
(`uniswap_curve_cycle.py` lines 707-821): a V2 leg emits the pool's
`swap` call carrying the two output amounts and the destination; a V3 leg
emits the pool's `swap` call carrying the destination, direction,
specified amount and price limit; a Curve leg first emits an `approve`
call when the current allowance is insufficient (or not yet infinite when
infinite approval is requested) and then the pool's `exchange` call.  A
swap-amount value whose shape does not match the pool raises an
`AttributeError`, which the surrounding catch-all converts to an
`ArbitrageError`. -/
def generateLegPayloads (get_approval : ApprovalReader) (from_address : Nat)
    (infinite_approval : Bool) (swap_pools : List Pool) (last_pool : Pool) (i : Nat)
    (swap_pool : Pool) (_swap_amounts : SwapAmount) : Except PyErr (List Payload) :=
  let dest := swapDestination swap_pools last_pool from_address i swap_pool
  match swap_pool, _swap_amounts with
  | .v2 p, .v2 a =>
    .ok [(p.address, .v2swap a.amounts.1 a.amounts.2 dest, 0)]
  | .v3 p, .v3 a =>
    .ok [(p.address, .v3swap dest a.zero_for_one a.amount_specified a.sqrt_price_limit_x96, 0)]
  | .curve p, .curve a =>
    let current_approval := get_approval a.token_in from_address p.address
    let amount_to_approve : Option Int :=
      if infinite_approval = true ∧ current_approval ≠ MAX_UINT256 then some MAX_UINT256
      else if infinite_approval = false ∧ current_approval < a.amount_in then some a.amount_in
      else none
    let approvals : List Payload :=
      match amount_to_approve with
      | some amt => [(a.token_in.address, .approve p.address amt, 0)]
      | none => []
    .ok (approvals ++
      [(p.address, .exchange a.token_in_index a.token_out_index a.amount_in a.min_amount_out,
        0)])
  | _, _ => .error .arbitrage

/-- The enumeration loop of `generate_payloads` over the zipped pools and
swap amounts. -/
def generatePayloadsLegs (get_approval : ApprovalReader) (from_address : Nat)
    (infinite_approval : Bool) (swap_pools : List Pool) (last_pool : Pool) :
    Nat → List (Pool × SwapAmount) → Except PyErr (List Payload)
  | _, [] => .ok []
  | i, (swap_pool, amounts) :: rest =>
    (generateLegPayloads get_approval from_address infinite_approval swap_pools last_pool i
        swap_pool amounts).bind fun pl =>
      (generatePayloadsLegs get_approval from_address infinite_approval swap_pools last_pool
          (i + 1) rest).map (pl ++ ·)

/-- `UniswapCurveCycle.generate_payloads` (`uniswap_curve_cycle.py` lines
625-826): an empty swap-amount list is abandoned with an `ArbitrageError`;
when the first pool is a V2 pool the payload list begins with a transfer
of the input amount of the input token to that pool (V2 pools require the
input to be transferred before the swap); then one leg of payloads per
(pool, swap amount) pair follows. -/
def UniswapCurveCycle.generate_payloads (get_approval : ApprovalReader)
    (self : UniswapCurveCycle) (from_address : Nat) (swap_amount : Int)
    (pool_swap_amounts : List SwapAmount) (infinite_approval : Bool) :
    Except PyErr (List Payload) :=
  if pool_swap_amounts = [] then .error .arbitrage
  else
    match self.swap_pools.getLast? with
    | none => .error .indexError
    | some last_pool =>
      let head_payloads : List Payload :=
        match self.swap_pools.head? with
        | some (.v2 p) => [(self.input_token.address, .transfer p.address swap_amount, 0)]
        | _ => []
      (generatePayloadsLegs get_approval from_address infinite_approval self.swap_pools
          last_pool 0 (self.swap_pools.zip pool_swap_amounts)).map
        (head_payloads ++ ·)

/-- Token continuity of a vector list: each vector's input token equals
the running output token of its predecessor (the derivation's running
`token_out`, seeded with the previous leg's output). -/
def Chained : Erc20Token → List SwapVector → Prop
  | _, [] => True
  | prev, v :: vs => v.token_in = prev ∧ Chained v.token_out vs

/-- The state contributed by one override value according to the spec's
words (section 4.5): a raw alternate-state value stands for itself, a
simulation result contributes only its future-state component, and a value
of neither accepted shape (here: a Curve simulation result, which the
resolver's accepted classes do not include) has no state. -/
def specOverrideState : OverrideValue → Option PoolState
  | .curveState s => some (.curve s)
  | .v2State s => some (.v2 s)
  | .v3State s => some (.v3 s)
  | .v2Sim r => some (.v2 r.future_state)
  | .v3Sim r => some (.v3 r.future_state)
  | .curveSim _ => none

/-- Modelled from the spec: the Curve quote computed from the overridden
state in place of the live state (section 3, State Override Set: an
alternate state to substitute during one evaluation).  This is the
comparison definition the override claim is stated against; the source's
Curve quote is compared with it. -/
def specCurveQuoteFromOverride (p : CurveStableswapPool) (token_in token_out : Erc20Token)
    (q : Int) (s : CurveStableswapPoolState) : Except PyErr Int :=
  CurveStableswapPool.calculate_tokens_out_from_tokens_in { p with balances := s.balances }
    token_in token_out q none

/-- The per-leg input quantities of the `_build_amounts_out` loop: the
`_token_in_quantity` value each leg's quote is called with (the caller's
quantity for the first leg, the previous leg's output afterwards). -/
def buildLegInputs (core : V3SwapCore) (ov : List (Nat × PoolState)) :
    Int → List (Pool × SwapVector) → Except PyErr (List Int)
  | _, [] => .ok []
  | q, (pool, vector) :: rest =>
    (buildLegQuote core ov pool vector q).bind fun out =>
      (buildLegInputs core ov out rest).map (q :: ·)

/-- The destination an emitted swap payload sends its output to, when the
call has one (the V2 `swap` recipient or the V3 `swap` recipient; transfer,
approve and Curve exchange calls carry no swap destination). -/
def Calldata.swapRecipient? : Calldata → Option Nat
  | .v2swap _ _ to_address => some to_address
  | .v3swap recipient _ _ _ => some recipient
  | _ => none

/-- Concrete test tokens. -/
def tokA : Erc20Token := { address := 1 }

def tokB : Erc20Token := { address := 2 }

def tokC : Erc20Token := { address := 3 }

def tokE : Erc20Token := { address := 4 }

/-- A concrete tick-crossing core standing in for the external V3 swap
loop in witnesses: it reports a fixed pair of deltas. -/
def coreStub : V3SwapCore := fun _ _ _ _ _ => .ok (0, -7)

/-- A concrete approval reader standing in for the on-chain allowance
lookup in witnesses: no allowance is set. -/
def approvalsStub : ApprovalReader := fun _ _ _ => 0

/-- A V2 pool holding tokens A and B with balanced reserves. -/
def poolAB : LiquidityPool :=
  { objId := 1, address := 0xA1, token0 := tokA, token1 := tokB,
    reserves_token0 := 10 ^ 6, reserves_token1 := 10 ^ 6 }

/-- A V2 pool holding tokens B and C: appending it after `poolAB` yields a
constructible but non-closed path A to B to C. -/
def poolBC : LiquidityPool :=
  { objId := 2, address := 0xA2, token0 := tokB, token1 := tokC,
    reserves_token0 := 10 ^ 6, reserves_token1 := 10 ^ 6 }

def cidC1 : String := "c1"

/-- The cycle value produced by constructing over pools A-B and B-C: the
derivation succeeds although the final output token C differs from the
input token A. -/
def c1cycle : UniswapCurveCycle :=
  { input_token := tokA,
    swap_pools := [.v2 poolAB, .v2 poolBC],
    id := cidC1, max_input := 10 ^ 18,
    _swap_vectors :=
      [.uniswap { token_in := tokA, token_out := tokB, zero_for_one := true },
       .uniswap { token_in := tokB, token_out := tokC, zero_for_one := true }],
    pool_states := [] }

/-- A V2 pool A-B with skewed reserves so that a one-unit input quote
returns a positive output. -/
def poolAB2 : LiquidityPool :=
  { objId := 1, address := 0xA1, token0 := tokA, token1 := tokB,
    reserves_token0 := 10 ^ 3, reserves_token1 := 10 ^ 9 }

/-- A V2 pool holding tokens C and A, closing a three-pool cycle. -/
def poolCA : LiquidityPool :=
  { objId := 4, address := 0xA3, token0 := tokC, token1 := tokA,
    reserves_token0 := 10 ^ 9, reserves_token1 := 10 ^ 9 }

/-- A generic-address three-coin Curve pool whose balances are so extreme
that the invariant iteration of `_get_D` does not settle within its 255
rounds: converging from `S = 10 ^ 70 + 2` down to the invariant near
`3 * 10 ^ 23` takes about 283 of the three-quarter-ratio contraction
steps.  All balances are nonzero, so the zero-liquidity guard does not
fire, and every positive input reaches the solver. -/
def c2curve : CurveStableswapPool :=
  { objId := 3, address := 0xCC, tokens := [tokB, tokC, tokE],
    balances := [1, 1, 10 ^ 70], a_coefficient := 1, fee := 4000000,
    rate_multipliers := [10 ^ 18, 10 ^ 18, 10 ^ 18], is_metapool := false,
    tokens_underlying := [] }

def cidC2 : String := "c2"

/-- The constructed cycle through the non-converging Curve pool. -/
def c2cycle : UniswapCurveCycle :=
  { input_token := tokA,
    swap_pools := [.v2 poolAB2, .curve c2curve, .v2 poolCA],
    id := cidC2, max_input := 10 ^ 18,
    _swap_vectors :=
      [.uniswap { token_in := tokA, token_out := tokB, zero_for_one := true },
       .curve { token_in := tokB, token_out := tokC, token_in_index := 0,
                token_out_index := 1 },
       .uniswap { token_in := tokC, token_out := tokA, zero_for_one := true }],
    pool_states := [] }

/-- A well-behaved generic-address three-coin Curve pool with balanced
reserves whose solver converges. -/
def c5curve : CurveStableswapPool :=
  { objId := 3, address := 0xCC, tokens := [tokB, tokC, tokE],
    balances := [10 ^ 18, 10 ^ 18, 10 ^ 18], a_coefficient := 1, fee := 4000000,
    rate_multipliers := [10 ^ 18, 10 ^ 18, 10 ^ 18], is_metapool := false,
    tokens_underlying := [] }

def cidC5 : String := "c5"

/-- The constructed three-pool cycle with the Curve pool in position 1. -/
def c5cycle : UniswapCurveCycle :=
  { input_token := tokA,
    swap_pools := [.v2 poolAB2, .curve c5curve, .v2 poolCA],
    id := cidC5, max_input := 10 ^ 18,
    _swap_vectors :=
      [.uniswap { token_in := tokA, token_out := tokB, zero_for_one := true },
       .curve { token_in := tokB, token_out := tokC, token_in_index := 0,
                token_out_index := 1 },
       .uniswap { token_in := tokC, token_out := tokA, zero_for_one := true }],
    pool_states := [] }

/-- A two-coin generic-address Curve pool used to show the override is
ignored by the Curve quote. -/
def c3curve : CurveStableswapPool :=
  { objId := 7, address := 0xC3, tokens := [tokA, tokB],
    balances := [10 ^ 18, 10 ^ 18], a_coefficient := 1, fee := 4000000,
    rate_multipliers := [10 ^ 18, 10 ^ 18], is_metapool := false,
    tokens_underlying := [] }

/-- An override state for `c3curve` with visibly different balances. -/
def c3override : CurveStableswapPoolState := { balances := [3 * 10 ^ 18, 10 ^ 18] }

def cidC4 : String := "c4"

/-- A one-pool cycle used to instantiate the optimizer-objective claim. -/
def c4cycle : UniswapCurveCycle :=
  { input_token := tokA,
    swap_pools := [.v2 poolAB2],
    id := cidC4, max_input := 10 ^ 18,
    _swap_vectors := [.uniswap { token_in := tokA, token_out := tokB, zero_for_one := true }],
    pool_states := [] }

/-- A V2 pool A-B appearing twice (same object identity) in a payload
cycle. -/
def pP : LiquidityPool :=
  { objId := 20, address := 0xB1, token0 := tokA, token1 := tokB,
    reserves_token0 := 10 ^ 6, reserves_token1 := 10 ^ 6 }

/-- A V2 pool B-A sitting between the two occurrences of `pP`. -/
def pQ : LiquidityPool :=
  { objId := 21, address := 0xB2, token0 := tokB, token1 := tokA,
    reserves_token0 := 10 ^ 6, reserves_token1 := 10 ^ 6 }

def cidC7 : String := "c7"

/-- The constructed cycle in which the first pool object is also the last
pool object. -/
def c7cycle : UniswapCurveCycle :=
  { input_token := tokA,
    swap_pools := [.v2 pP, .v2 pQ, .v2 pP],
    id := cidC7, max_input := 10 ^ 18,
    _swap_vectors :=
      [.uniswap { token_in := tokA, token_out := tokB, zero_for_one := true },
       .uniswap { token_in := tokB, token_out := tokA, zero_for_one := true },
       .uniswap { token_in := tokA, token_out := tokB, zero_for_one := true }],
    pool_states := [] }

/-- A concrete V2 swap-amount value for payload generation. -/
def aV2 : SwapAmount := .v2 { amounts := (0, 5) }

/-- A concrete V3 pool for the swap-amount claim. -/
def pV3 : V3LiquidityPool :=
  { objId := 31, address := 0xD1, token0 := tokA, token1 := tokB, tick_spacing := 60,
    state := { liquidity := 10 ^ 9, sqrt_price_x96 := 2 ^ 96, tick := 0,
               tick_bitmap := [], tick_data := [] } }

/-- A V2 pool B-A closing the V3 test cycle. -/
def pBA : LiquidityPool :=
  { objId := 32, address := 0xD2, token0 := tokB, token1 := tokA,
    reserves_token0 := 10 ^ 9, reserves_token1 := 10 ^ 9 }

def cidC8 : String := "c8"

/-- The constructed two-pool cycle with a V3 first leg. -/
def c8cycle : UniswapCurveCycle :=
  { input_token := tokA,
    swap_pools := [.v3 pV3, .v2 pBA],
    id := cidC8, max_input := 10 ^ 18,
    _swap_vectors :=
      [.uniswap { token_in := tokA, token_out := tokB, zero_for_one := true },
       .uniswap { token_in := tokB, token_out := tokA, zero_for_one := true }],
    pool_states := [] }

/-- A concrete Curve swap-amount value for payload generation. -/
def aCu : SwapAmount :=
  .curve { token_in := tokB, token_in_index := 0, token_out := tokC, token_out_index := 1,
           amount_in := 7, min_amount_out := 5, underlying := false }

/-- The payload list generated for the distinct-pool witness cycle. -/
def c7witnessPayloads : List Payload :=
  [(tokA.address, .transfer poolAB2.address 9, 0),
   (poolAB2.address, .v2swap 0 5 0xFA, 0),
   (tokB.address, .approve c2curve.address 7, 0),
   (c2curve.address, .exchange 0 1 7 5, 0),
   (poolCA.address, .v2swap 0 5 0xFA, 0)]

/-- The V3 swap amount built for the first leg of the V3 witness cycle. -/
def c8amountV3 : UniswapV3PoolSwapAmounts :=
  { amount_specified := 100, zero_for_one := true, sqrt_price_limit_x96 := 4295128740 }

theorem mapGet_mapInsert {α : Type} (m : List (Nat × α)) (k : Nat) (v : α) :
    mapGet (mapInsert m k v) k = some v := by
  induction m with
  | nil => simp [mapInsert, mapGet]
  | cons kv rest ih =>
    by_cases hk : kv.1 = k
    · simp [mapInsert, mapGet, List.find?, hk]
    · by_cases ha : rest.any (fun kv => decide (kv.1 = k)) = true
      · simpa [mapInsert, mapGet, List.find?, hk, ha] using ih
      · simpa [mapInsert, mapGet, List.find?, hk, ha] using ih

theorem pyInt_eq_floor (x : ℚ) (h : 0 ≤ x) : pyInt x = ⌊x⌋ := by
  rw [pyInt, if_pos h, Rat.floor_def', Rat.floor_def]

theorem arbProfitLegs_eq_evaluate (core : V3SwapCore) (ov : List (Nat × PoolState)) :
    ∀ (legs : List (Pool × SwapVector)) (q : Int),
      arbProfitLegs core ov q legs =
        match evaluateCycleLegs core ov q legs with
        | .ok out => .ok out
        | .error e => if e.caughtByArbProfit then .ok 0 else .error e := by
  intro legs
  induction legs with
  | nil => intro q; rfl
  | cons leg rest ih =>
    intro q
    obtain ⟨pool, vector⟩ := leg
    simp only [arbProfitLegs, evaluateCycleLegs]
    cases hq : legQuote core ov pool vector q with
    | ok out => simpa [Except.bind] using ih out
    | error e => cases he : e.caughtByArbProfit <;> simp [Except.bind, he]

theorem except_map_eq_ok {ε α β : Type} (f : α → β) (e : Except ε α) (b : β)
    (h : e.map f = .ok b) : ∃ a, e = .ok a ∧ b = f a := by
  cases e with
  | error err => simp [Except.map] at h
  | ok a =>
    simp only [Except.map, Except.ok.injEq] at h
    exact ⟨a, rfl, h.symm⟩

theorem deriveSwapVectors_chained : ∀ (pools : List Pool) (i : Nat) (prev : Erc20Token)
    (vecs : List SwapVector), deriveSwapVectors i prev pools = .ok vecs → Chained prev vecs := by
  intro pools
  induction pools with
  | nil =>
    intro i prev vecs h
    cases h
    trivial
  | cons pool rest ih =>
    intro i prev vecs h
    cases pool with
    | v2 p =>
      simp only [deriveSwapVectors] at h
      split at h
      · obtain ⟨vs, hrec, rfl⟩ := except_map_eq_ok _ _ _ h
        exact ⟨by simp_all [SwapVector.token_in], ih _ _ _ hrec⟩
      · split at h
        · obtain ⟨vs, hrec, rfl⟩ := except_map_eq_ok _ _ _ h
          exact ⟨by simp_all [SwapVector.token_in], ih _ _ _ hrec⟩
        · exact absurd h (by simp)
    | v3 p =>
      simp only [deriveSwapVectors] at h
      split at h
      · obtain ⟨vs, hrec, rfl⟩ := except_map_eq_ok _ _ _ h
        exact ⟨by simp_all [SwapVector.token_in], ih _ _ _ hrec⟩
      · split at h
        · obtain ⟨vs, hrec, rfl⟩ := except_map_eq_ok _ _ _ h
          exact ⟨by simp_all [SwapVector.token_in], ih _ _ _ hrec⟩
        · exact absurd h (by simp)
    | curve p =>
      simp only [deriveSwapVectors] at h
      split at h
      · split at h
        · exact absurd h (by simp)
        · split at h
          · exact absurd h (by simp)
          · split at h
            all_goals first
              | (obtain ⟨vs, hrec, rfl⟩ := except_map_eq_ok _ _ _ h
                 exact ⟨rfl, ih _ _ _ hrec⟩)
              | exact absurd h (by simp)
      · exact absurd h (by simp)

theorem Chained.get_adjacent : ∀ (vecs : List SwapVector) (prev : Erc20Token),
    Chained prev vecs → ∀ (i : Nat) (v w : SwapVector), vecs.get? i = some v →
      vecs.get? (i + 1) = some w → v.token_out = w.token_in := by
  intro vecs
  induction vecs with
  | nil => intro prev _ i v w hv _; simp at hv
  | cons a vs ih =>
    intro prev hch i v w hv hw
    obtain ⟨_, hrest⟩ := hch
    cases i with
    | zero =>
      cases hv
      cases vs with
      | nil => simp at hw
      | cons b bs =>
        cases hw
        exact hrest.1.symm
    | succ n => exact ih a.token_out hrest n v w hv hw

/-- C1 (amended): for every successfully constructed UniswapCurveCycle the
derived swap vectors satisfy adjacent token continuity — for every
adjacent pair, vector i's output token equals vector i+1's input token.
Closure of the final vector's output token to the cycle's input token is
not checked by the constructor and can fail (see the counterexample). -/
theorem claim_C1_amended : ∀ (tok : Erc20Token) (pools : List Pool) (cid : String)
    (mi : Option Int) (c : UniswapCurveCycle),
    UniswapCurveCycle.mk? tok pools cid mi = .ok c →
    ∀ (i : Nat) (v w : SwapVector), c._swap_vectors.get? i = some v →
      c._swap_vectors.get? (i + 1) = some w → v.token_out = w.token_in := by
  intro tok pools cid mi c h i v w hv hw
  simp only [UniswapCurveCycle.mk?] at h
  cases hrec : deriveSwapVectors 0 tok pools with
  | error e => rw [hrec] at h; exact absurd h (by simp [Except.map])
  | ok vs =>
    rw [hrec] at h
    simp only [Except.map, Except.ok.injEq] at h
    subst h
    exact Chained.get_adjacent vs tok (deriveSwapVectors_chained pools 0 tok vs hrec) i v w hv hw

/-- C1 (counterexample): the claim also asserts closure — that the final
vector's output token equals the cycle's input token — but construction
succeeds on the open path A-B, B-C, whose final output token C differs
from the input token A. -/
theorem claim_C1_counterexample :
    UniswapCurveCycle.mk? tokA [.v2 poolAB, .v2 poolBC] cidC1 (some (10 ^ 18)) =
      .ok c1cycle ∧
    c1cycle._swap_vectors.getLast? =
      some (.uniswap { token_in := tokB, token_out := tokC, zero_for_one := true }) ∧
    (SwapVector.uniswap
        { token_in := tokB, token_out := tokC, zero_for_one := true }).token_out ≠
      c1cycle.input_token := by
  refine ⟨rfl, rfl, ?_⟩
  decide

/-- C1 (witness): the amended continuity theorem applied to a concrete
constructed three-pool cycle at the first adjacent pair. -/
theorem claim_C1_witness :
    UniswapCurveCycle.mk? tokA [.v2 poolAB2, .curve c5curve, .v2 poolCA] cidC5
        (some (10 ^ 18)) = .ok c5cycle ∧
    (SwapVector.uniswap
        { token_in := tokA, token_out := tokB, zero_for_one := true }).token_out =
      (SwapVector.curve
        { token_in := tokB, token_out := tokC, token_in_index := 0,
          token_out_index := 1 }).token_in :=
  ⟨rfl,
   claim_C1_amended tokA [.v2 poolAB2, .curve c5curve, .v2 poolCA] cidC5 (some (10 ^ 18))
     c5cycle rfl 0 _ _ rfl rfl⟩

/-- C3 (amended): a supplied override state is passed down to each pool's
quote; for Uniswap V2 and V3 pools the quote is computed from the
overridden state exactly as if it were the live state, but for Curve
StableSwap pools the override is accepted and ignored — the quote equals
the live-state quote (applying overrides there is an explicit todo in the
source).  No pool's real state is mutated (all quotes are pure). -/
theorem claim_C3_amended :
    (∀ (p : LiquidityPool) (tin : Erc20Token) (q : Int) (s : UniswapV2PoolState),
        p.calculate_tokens_out_from_tokens_in tin q (some (.v2 s)) =
          LiquidityPool.calculate_tokens_out_from_tokens_in
            { p with reserves_token0 := s.reserves_token0,
                     reserves_token1 := s.reserves_token1 } tin q none) ∧
    (∀ (core : V3SwapCore) (p : V3LiquidityPool) (tin : Erc20Token) (q : Int)
        (s : UniswapV3PoolState),
        V3LiquidityPool.calculate_tokens_out_from_tokens_in core p tin q (some (.v3 s)) =
          V3LiquidityPool.calculate_tokens_out_from_tokens_in core { p with state := s } tin
            q none) ∧
    (∀ (p : CurveStableswapPool) (tin tout : Erc20Token) (q : Int)
        (s : CurveStableswapPoolState),
        p.calculate_tokens_out_from_tokens_in tin tout q (some (.curve s)) =
          p.calculate_tokens_out_from_tokens_in tin tout q none) :=
  ⟨fun _ _ _ _ => rfl, fun _ _ _ _ _ => rfl, fun _ _ _ _ _ => rfl⟩

/-- C3 (counterexample): the claim as stated — the evaluation result is
computed from the overridden state, in particular for Curve pools — is
false: at a concrete Curve pool with a concrete override whose balances
differ from the live ones, the quote with the override differs from the
quote computed from the overridden state (it equals the live-state
quote instead). -/
theorem claim_C3_counterexample :
    CurveStableswapPool.calculate_tokens_out_from_tokens_in c3curve tokA tokB (10 ^ 15)
        (some (.curve c3override)) ≠
      specCurveQuoteFromOverride c3curve tokA tokB (10 ^ 15) c3override := by
  intro h
  have h1 : CurveStableswapPool.calculate_tokens_out_from_tokens_in c3curve tokA tokB
      (10 ^ 15) (some (.curve c3override)) = Except.ok (999100449650350 : Int) := rfl
  have h2 : specCurveQuoteFromOverride c3curve tokA tokB (10 ^ 15) c3override =
      Except.ok (545199655656458 : Int) := rfl
  rw [h1, h2] at h
  exact absurd (Except.ok.inj h) (by decide)

theorem sortOverridesGo_all_some : ∀ (l : List (Pool × OverrideValue))
    (acc : List (Nat × PoolState)),
    (∀ pv ∈ l, (specOverrideState pv.2).isSome) →
    sortOverridesGo l acc =
      .ok (l.foldl
        (fun m pv =>
          mapInsert m pv.1.address ((specOverrideState pv.2).getD (.curve { balances := [] })))
        acc) := by
  intro l
  induction l with
  | nil => intro acc _; rfl
  | cons pv rest ih =>
    intro acc hall
    obtain ⟨pool, ov⟩ := pv
    have hrest : ∀ pv ∈ rest, (specOverrideState pv.2).isSome :=
      fun x hx => hall x (List.mem_cons_of_mem _ hx)
    cases ov with
    | curveState s => exact ih _ hrest
    | v2State s => exact ih _ hrest
    | v3State s => exact ih _ hrest
    | v2Sim r => exact ih _ hrest
    | v3Sim r => exact ih _ hrest
    | curveSim r =>
      have := hall (pool, .curveSim r) (List.mem_cons_self _ _)
      simp [specOverrideState] at this

theorem sortOverridesGo_error : ∀ (l : List (Pool × OverrideValue))
    (acc : List (Nat × PoolState)),
    (∃ pv ∈ l, specOverrideState pv.2 = none) →
    sortOverridesGo l acc = .error .valueError := by
  intro l
  induction l with
  | nil =>
    rintro acc ⟨pv, hmem, _⟩
    simp at hmem
  | cons hd rest ih =>
    rintro acc ⟨pv, hmem, hnone⟩
    obtain ⟨pool, ov⟩ := hd
    rcases List.mem_cons.mp hmem with heq | hmem'
    · subst heq
      cases ov <;> first | rfl | simp [specOverrideState] at hnone
    · cases ov with
      | curveState s => exact ih _ ⟨pv, hmem', hnone⟩
      | v2State s => exact ih _ ⟨pv, hmem', hnone⟩
      | v3State s => exact ih _ ⟨pv, hmem', hnone⟩
      | v2Sim r => exact ih _ ⟨pv, hmem', hnone⟩
      | v3Sim r => exact ih _ ⟨pv, hmem', hnone⟩
      | curveSim r => rfl

/-- C6: the override resolver maps each raw pool-state value to itself
keyed by the pool's address, maps each V2/V3 simulation-result value to
its future-state component, raises a ValueError as soon as any value has
neither shape (in particular for a Curve simulation result, which the
accepted classes do not include), and resolves an absent or empty input
to the empty map. -/
theorem claim_C6_override_resolution :
    UniswapCurveCycle._sort_overrides none = .ok [] ∧
    UniswapCurveCycle._sort_overrides (some []) = .ok [] ∧
    (∀ l : List (Pool × OverrideValue),
      (∀ pv ∈ l, (specOverrideState pv.2).isSome) →
      UniswapCurveCycle._sort_overrides (some l) =
        .ok (l.foldl
          (fun m pv =>
            mapInsert m pv.1.address
              ((specOverrideState pv.2).getD (.curve { balances := [] })))
          [])) ∧
    (∀ l : List (Pool × OverrideValue),
      (∃ pv ∈ l, specOverrideState pv.2 = none) →
      UniswapCurveCycle._sort_overrides (some l) = .error .valueError) :=
  ⟨rfl, rfl, fun l h => sortOverridesGo_all_some l [] h,
   fun l h => sortOverridesGo_error l [] h⟩

/-- C6 (witness): the resolver theorem applied to a concrete override
list mixing a raw state with a simulation result, and to a concrete list
containing a Curve simulation result. -/
theorem claim_C6_witness :
    UniswapCurveCycle._sort_overrides
        (some [(.v2 pP, .v2State { reserves_token0 := 5, reserves_token1 := 6 }),
               (.v3 pV3, .v3Sim
                 { amount0_delta := 0, amount1_delta := 0,
                   current_state := pV3.state, future_state := pV3.state })]) =
      .ok [(pP.address, .v2 { reserves_token0 := 5, reserves_token1 := 6 }),
           (pV3.address, .v3 pV3.state)] ∧
    UniswapCurveCycle._sort_overrides
        (some [(.curve c5curve, .curveSim
          { amount0_delta := 0, amount1_delta := 0,
            current_state := { balances := [] }, future_state := { balances := [] } })]) =
      .error .valueError := by
  constructor
  · exact claim_C6_override_resolution.2.2.1 _ (by decide)
  · exact claim_C6_override_resolution.2.2.2 _
      ⟨(.curve c5curve, .curveSim
        { amount0_delta := 0, amount1_delta := 0,
          current_state := { balances := [] }, future_state := { balances := [] } }),
       List.mem_cons_self _ _, rfl⟩

/-- C9 (amended): on a state-change notification the cycle's only reaction
is to update its cached pool-state map entry for the publishing pool —
but only for Uniswap V2 and V3 publishers; a Curve publisher's
notification leaves the cycle entirely unchanged (the isinstance guard in
notify does not include Curve pools).  No other attribute changes in
either case. -/
theorem claim_C9_amended (c : UniswapCurveCycle) (pub : Pool) :
    ((∃ p, pub = Pool.v2 p) ∨ (∃ p, pub = Pool.v3 p) →
      c.notify pub = c._update_pool_states [pub] ∧
      mapGet (c.notify pub).pool_states pub.address = some pub.state ∧
      (c.notify pub).input_token = c.input_token ∧
      (c.notify pub).swap_pools = c.swap_pools ∧
      (c.notify pub).id = c.id ∧
      (c.notify pub).max_input = c.max_input ∧
      (c.notify pub)._swap_vectors = c._swap_vectors) ∧
    (∀ p, pub = Pool.curve p → c.notify pub = c) := by
  constructor
  · rintro (⟨p, rfl⟩ | ⟨p, rfl⟩) <;>
      exact ⟨rfl, mapGet_mapInsert c.pool_states _ _, rfl, rfl, rfl, rfl, rfl⟩
  · rintro p rfl
    rfl

/-- C9 (counterexample): the claim additionally asserts the cache update
happens for every publishing pool type, but a Curve publisher's
notification does not create or update its map entry: on a concrete
constructed cycle with an empty cache, notifying with the cycle's own
Curve pool leaves the cache empty. -/
theorem claim_C9_counterexample :
    UniswapCurveCycle.mk? tokA [.v2 poolAB2, .curve c5curve, .v2 poolCA] cidC5
        (some (10 ^ 18)) = .ok c5cycle ∧
    c5cycle.notify (.curve c5curve) = c5cycle ∧
    mapGet (c5cycle.notify (.curve c5curve)).pool_states (Pool.curve c5curve).address ≠
      some (Pool.curve c5curve).state := by
  refine ⟨rfl, rfl, ?_⟩
  decide

/-- C9 (witness): the amended notification theorem applied to a concrete
cycle and a concrete V2 publisher. -/
theorem claim_C9_witness :
    c5cycle.notify (.v2 poolAB2) = c5cycle._update_pool_states [.v2 poolAB2] ∧
    mapGet (c5cycle.notify (.v2 poolAB2)).pool_states (Pool.v2 poolAB2).address =
      some (Pool.v2 poolAB2).state :=
  ⟨((claim_C9_amended c5cycle (.v2 poolAB2)).1 (Or.inl ⟨poolAB2, rfl⟩)).1,
   ((claim_C9_amended c5cycle (.v2 poolAB2)).1 (Or.inl ⟨poolAB2, rfl⟩)).2.1⟩

/-- C10: the swap-amount list built by `_build_amounts_out` is independent
of the `token_in` argument: two calls differing only in the passed token
return identical results, because every leg overwrites the token variable
from the precomputed swap vector before any use. -/
theorem claim_C10_token_in_independent (core : V3SwapCore) (c : UniswapCurveCycle)
    (t1 t2 : Erc20Token) (q : Int) (ov : List (Nat × PoolState)) :
    UniswapCurveCycle._build_amounts_out core c t1 q ov =
      UniswapCurveCycle._build_amounts_out core c t2 q ov := by
  unfold UniswapCurveCycle._build_amounts_out
  cases c.swap_pools.zip c._swap_vectors with
  | nil => rfl
  | cons leg rest =>
    obtain ⟨pool, vector⟩ := leg
    rfl

/-- C4: for every probed real input in the search interval, the
optimizer's objective equals the negated profit
`-(evaluate(floor(x)) - floor(x))`, where the evaluation threads
`floor(x)` through every pool in order (the cycle holds at least one
(pool, vector) leg, per the data model's two-or-more-pools shape); and
when the evaluation fails with a caught pricing error the objective
equals the one obtained by treating the cycle output as zero, i.e. the
profit is `-floor(x)` (objective `floor(x)`). -/
theorem claim_C4_objective (core : V3SwapCore) (c : UniswapCurveCycle)
    (ov : List (Nat × PoolState)) (x : ℚ) (hx1 : 1 ≤ x) (_hx2 : x ≤ (c.max_input : ℚ))
    (hne : c.swap_pools.zip c._swap_vectors ≠ []) :
    pyInt x = ⌊x⌋ ∧
    (∀ out : Int,
      evaluateCycleLegs core ov ⌊x⌋ (c.swap_pools.zip c._swap_vectors) = .ok out →
      arb_profit core c ov x = .ok ((-(out - ⌊x⌋) : Int) : ℚ)) ∧
    (∀ e : PyErr,
      evaluateCycleLegs core ov ⌊x⌋ (c.swap_pools.zip c._swap_vectors) = .error e →
      e.caughtByArbProfit = true →
      arb_profit core c ov x = .ok ((⌊x⌋ : Int) : ℚ)) := by
  have h0 : (0 : ℚ) ≤ x := le_trans zero_le_one hx1
  have hfl := pyInt_eq_floor x h0
  have hrel := arbProfitLegs_eq_evaluate core ov (c.swap_pools.zip c._swap_vectors) ⌊x⌋
  refine ⟨hfl, ?_, ?_⟩
  · intro out hev
    simp only [arb_profit, hfl]
    cases hz : c.swap_pools.zip c._swap_vectors with
    | nil => exact absurd hz hne
    | cons leg legs =>
      rw [hz] at hrel hev
      show Except.map (fun token_out_quantity => ((-(token_out_quantity - ⌊x⌋) : Int) : ℚ))
          (arbProfitLegs core ov ⌊x⌋ (leg :: legs)) = _
      rw [hrel, hev]
      simp [Except.map]
  · intro e hev hcaught
    simp only [arb_profit, hfl]
    cases hz : c.swap_pools.zip c._swap_vectors with
    | nil => exact absurd hz hne
    | cons leg legs =>
      rw [hz] at hrel hev
      show Except.map (fun token_out_quantity => ((-(token_out_quantity - ⌊x⌋) : Int) : ℚ))
          (arbProfitLegs core ov ⌊x⌋ (leg :: legs)) = _
      rw [hrel, hev]
      simp [Except.map, hcaught]

/-- C4 (witness): the objective theorem applied to a concrete one-pool
cycle at the probe 3/2, whose evaluation at the floored input 1 yields
996006. -/
theorem claim_C4_witness :
    (1 : ℚ) ≤ 3 / 2 ∧
    evaluateCycleLegs coreStub [] ⌊(3 / 2 : ℚ)⌋
        (c4cycle.swap_pools.zip c4cycle._swap_vectors) = .ok 996006 ∧
    arb_profit coreStub c4cycle [] (3 / 2) =
      .ok ((-((996006 : Int) - ⌊(3 / 2 : ℚ)⌋) : Int) : ℚ) := by
  have hx : (1 : ℚ) ≤ 3 / 2 := by norm_num
  have hfloor : ⌊(3 / 2 : ℚ)⌋ = 1 := by norm_num
  have hev : evaluateCycleLegs coreStub [] ⌊(3 / 2 : ℚ)⌋
      (c4cycle.swap_pools.zip c4cycle._swap_vectors) = .ok 996006 := by
    rw [hfloor]; rfl
  exact ⟨hx, hev,
    (claim_C4_objective coreStub c4cycle [] (3 / 2) hx (by norm_num [c4cycle])
      (by decide)).2.1 996006 hev⟩

set_option maxRecDepth 40000 in
/-- C2 (code-bug evidence): on a constructible cycle through a Curve pool
whose balances make the invariant iteration of `_get_D` exhaust its 255
rounds, the solver's bare-Exception non-convergence error propagates out
of the per-probe evaluator uncaught (at the probe amount 1, hence at any
probed amount, since `_get_D` does not depend on the traded amount),
instead of being converted to a failure score for that probe as the claim
and the evaluator's own catch-comment require: the bare exception is not
in the caught `(EVMRevertError, LiquidityPoolError)` family. -/
theorem claim_C2_uncaught_nonconvergence :
    UniswapCurveCycle.mk? tokA [.v2 poolAB2, .curve c2curve, .v2 poolCA] cidC2
        (some (10 ^ 18)) = .ok c2cycle ∧
    PyErr.plain.caughtByArbProfit = false ∧
    arb_profit coreStub c2cycle [] 1 = .error .plain := by
  exact ⟨rfl, rfl, rfl⟩

theorem deriveSwapVectors_curve_misplaced : ∀ (pools : List Pool) (i0 k : Nat)
    (prev : Erc20Token) (p : CurveStableswapPool),
    pools.get? k = some (.curve p) → i0 + k ≠ 1 →
    ∀ vecs, deriveSwapVectors i0 prev pools ≠ .ok vecs := by
  intro pools
  induction pools with
  | nil => intro i0 k prev p hk; simp at hk
  | cons pool rest ih =>
    intro i0 k prev p hk hne vecs h
    cases k with
    | zero =>
      injection hk with hk
      subst hk
      simp only [deriveSwapVectors] at h
      split at h
      · omega
      · simp at h
    | succ k' =>
      have hk' : rest.get? k' = some (.curve p) := hk
      have hne' : i0 + 1 + k' ≠ 1 := by omega
      cases pool with
      | v2 q =>
        simp only [deriveSwapVectors] at h
        split at h
        · obtain ⟨vs, hrec, -⟩ := except_map_eq_ok _ _ _ h
          exact ih (i0 + 1) k' _ p hk' hne' vs hrec
        · split at h
          · obtain ⟨vs, hrec, -⟩ := except_map_eq_ok _ _ _ h
            exact ih (i0 + 1) k' _ p hk' hne' vs hrec
          · simp at h
      | v3 q =>
        simp only [deriveSwapVectors] at h
        split at h
        · obtain ⟨vs, hrec, -⟩ := except_map_eq_ok _ _ _ h
          exact ih (i0 + 1) k' _ p hk' hne' vs hrec
        · split at h
          · obtain ⟨vs, hrec, -⟩ := except_map_eq_ok _ _ _ h
            exact ih (i0 + 1) k' _ p hk' hne' vs hrec
          · simp at h
      | curve q =>
        simp only [deriveSwapVectors] at h
        split at h
        · split at h
          · simp at h
          · split at h
            · simp at h
            · split at h
              all_goals first
                | (obtain ⟨vs, hrec, -⟩ := except_map_eq_ok _ _ _ h
                   exact ih (i0 + 1) k' _ p hk' hne' vs hrec)
                | simp at h
        · simp at h

theorem deriveSwapVectors_cons_ok : ∀ (pool : Pool) (rest : List Pool) (i : Nat)
    (prev : Erc20Token) (vecs : List SwapVector),
    deriveSwapVectors i prev (pool :: rest) = .ok vecs →
    ∃ v vs tnext, vecs = v :: vs ∧ deriveSwapVectors (i + 1) tnext rest = .ok vs := by
  intro pool rest i prev vecs h
  cases pool with
  | v2 q =>
    simp only [deriveSwapVectors] at h
    split at h
    · obtain ⟨vs, hrec, rfl⟩ := except_map_eq_ok _ _ _ h
      exact ⟨_, vs, _, rfl, hrec⟩
    · split at h
      · obtain ⟨vs, hrec, rfl⟩ := except_map_eq_ok _ _ _ h
        exact ⟨_, vs, _, rfl, hrec⟩
      · simp at h
  | v3 q =>
    simp only [deriveSwapVectors] at h
    split at h
    · obtain ⟨vs, hrec, rfl⟩ := except_map_eq_ok _ _ _ h
      exact ⟨_, vs, _, rfl, hrec⟩
    · split at h
      · obtain ⟨vs, hrec, rfl⟩ := except_map_eq_ok _ _ _ h
        exact ⟨_, vs, _, rfl, hrec⟩
      · simp at h
  | curve q =>
    simp only [deriveSwapVectors] at h
    split at h
    · split at h
      · simp at h
      · split at h
        · simp at h
        · split at h
          · obtain ⟨vs, hrec, rfl⟩ := except_map_eq_ok _ _ _ h
            exact ⟨_, vs, _, rfl, hrec⟩
          all_goals simp at h
    · simp at h

theorem deriveSwapVectors_one_curve : ∀ (p : CurveStableswapPool) (next : Pool)
    (t2 : List Pool) (tok : Erc20Token) (vs1 : List SwapVector),
    deriveSwapVectors 1 tok (Pool.curve p :: next :: t2) = .ok vs1 →
    (curveSharedTokens p next).length = 1 ∧
      ∃ v : CurveStableSwapPoolVector, vs1.get? 0 = some (.curve v) ∧
        curveSharedTokens p next = [v.token_out] := by
  intro p next t2 tok vs1 h
  simp only [deriveSwapVectors] at h
  split at h
  · split at h
    · simp at h
    · rename_i hlen
      split at h
      · obtain ⟨vs2, hrec, rfl⟩ := except_map_eq_ok _ _ _ h
        have hlen1 : (curveSharedTokens p next).length = 1 := not_not.mp hlen
        obtain ⟨sh, hsh⟩ := List.length_eq_one.mp hlen1
        refine ⟨hlen1, ⟨_, rfl, ?_⟩⟩
        rw [hsh]
        simp [SwapVector.token_out, List.headD, List.head?]
      all_goals simp at h
  · simp_all

/-- C5: the constructor admits a multi-token (Curve StableSwap) pool only
at cycle position 1: a pool list holding a Curve pool at any other index
never constructs (a configuration error is raised); and when construction
succeeds with a Curve pool at index 1, a next pool exists, the shared
token set of the Curve pool and the next pool has exactly one member, and
that unique member is the continuation token recorded as the Curve
vector's output token. -/
theorem claim_C5_curve_position :
    (∀ (tok : Erc20Token) (pools : List Pool) (cid : String) (mi : Option Int)
        (i : Nat) (p : CurveStableswapPool),
        pools.get? i = some (.curve p) → i ≠ 1 →
        ∀ c, UniswapCurveCycle.mk? tok pools cid mi ≠ .ok c) ∧
    (∀ (tok : Erc20Token) (pools : List Pool) (cid : String) (mi : Option Int)
        (c : UniswapCurveCycle) (p : CurveStableswapPool),
        UniswapCurveCycle.mk? tok pools cid mi = .ok c →
        pools.get? 1 = some (.curve p) →
        (pools.get? 2).isSome ∧
        ∀ next, pools.get? 2 = some next →
          (curveSharedTokens p next).length = 1 ∧
          ∀ v, c._swap_vectors.get? 1 = some v → curveSharedTokens p next = [v.token_out]) := by
  constructor
  · intro tok pools cid mi i p hk hne c h
    simp only [UniswapCurveCycle.mk?] at h
    obtain ⟨vs, hder, -⟩ := except_map_eq_ok _ _ _ h
    exact deriveSwapVectors_curve_misplaced pools 0 i tok p hk (by omega) vs hder
  · intro tok pools cid mi c p h hk
    simp only [UniswapCurveCycle.mk?] at h
    obtain ⟨vs, hder, rfl⟩ := except_map_eq_ok _ _ _ h
    cases pools with
    | nil => simp at hk
    | cons a tail =>
      cases tail with
      | nil => simp at hk
      | cons b t =>
        have hb : b = Pool.curve p := by
          injection hk with hk
        subst hb
        obtain ⟨v0, vs1, tnext, rfl, hrec⟩ := deriveSwapVectors_cons_ok _ _ _ _ _ hder
        cases t with
        | nil => simp [deriveSwapVectors] at hrec
        | cons next t2 =>
          obtain ⟨hlen, cv, hget, hshared⟩ :=
            deriveSwapVectors_one_curve p next t2 tnext vs1 hrec
          refine ⟨by simp, ?_⟩
          intro next' hnext'
          have hn : next' = next := by
            simpa using hnext'.symm
          subst hn
          refine ⟨hlen, ?_⟩
          intro v hv
          have hv' : vs1.get? 0 = some v := hv
          rw [hget] at hv'
          injection hv' with hv'
          rw [← hv']
          exact hshared

/-- C5 (witness): the position theorem applied concretely — a Curve pool
at position 0 fails construction, and at position 1 the shared-token set
with the next pool is the singleton holding the recorded continuation
token. -/
theorem claim_C5_witness :
    (UniswapCurveCycle.mk? tokA [.curve c5curve, .v2 poolAB2] cidC5 (some (10 ^ 18)) ≠
      .ok c5cycle) ∧
    UniswapCurveCycle.mk? tokA [.v2 poolAB2, .curve c5curve, .v2 poolCA] cidC5
        (some (10 ^ 18)) = .ok c5cycle ∧
    (curveSharedTokens c5curve (.v2 poolCA)).length = 1 ∧
    curveSharedTokens c5curve (.v2 poolCA) =
      [(SwapVector.curve
          { token_in := tokB, token_out := tokC, token_in_index := 0,
            token_out_index := 1 }).token_out] := by
  refine ⟨claim_C5_curve_position.1 tokA [.curve c5curve, .v2 poolAB2] cidC5
    (some (10 ^ 18)) 0 c5curve rfl (by decide) c5cycle, rfl, ?_, ?_⟩
  · exact ((claim_C5_curve_position.2 tokA [.v2 poolAB2, .curve c5curve, .v2 poolCA] cidC5
      (some (10 ^ 18)) c5cycle c5curve rfl rfl).2 (.v2 poolCA) rfl).1
  · exact ((claim_C5_curve_position.2 tokA [.v2 poolAB2, .curve c5curve, .v2 poolCA] cidC5
      (some (10 ^ 18)) c5cycle c5curve rfl rfl).2 (.v2 poolCA) rfl).2 _ rfl

/-- C7 (amended): in the generated payload list, a cycle whose first pool
is a constant-product (V2) pool begins with a transfer of the input amount
of the input token to that pool's address; and — provided the final pool
object does not also occur at an earlier position (the source compares
pools by object identity to detect the final leg) — the destination
selected for the swap of leg i is the next pool's address exactly when
the next pool is a V2 pool, and the sending/holding address otherwise
(V3 or Curve next pool, or final leg); every emitted swap payload carries
exactly that destination. -/
theorem claim_C7_amended :
    (∀ (ga : ApprovalReader) (c : UniswapCurveCycle) (fromA : Nat) (amt : Int)
        (amounts : List SwapAmount) (inf : Bool) (p0 : LiquidityPool)
        (res : List Payload),
        amounts ≠ [] → c.swap_pools.head? = some (.v2 p0) →
        c.generate_payloads ga fromA amt amounts inf = .ok res →
        res.head? = some (c.input_token.address, .transfer p0.address amt, 0)) ∧
    (∀ (pools : List Pool) (lastPool : Pool) (fromA : Nat) (i : Nat) (pool : Pool),
        pools.getLast? = some lastPool →
        (∀ j q, pools.get? j = some q → j + 1 ≠ pools.length → q.objId ≠ lastPool.objId) →
        pools.get? i = some pool →
        swapDestination pools lastPool fromA i pool =
          if i + 1 = pools.length then fromA
          else
            match pools.get? (i + 1) with
            | some (.v2 np) => np.address
            | some _ => fromA
            | none => fromA) ∧
    (∀ (ga : ApprovalReader) (fromA : Nat) (inf : Bool) (pools : List Pool)
        (lastPool : Pool) (i : Nat) (pool : Pool) (amt : SwapAmount)
        (pl : List Payload),
        generateLegPayloads ga fromA inf pools lastPool i pool amt = .ok pl →
        ∀ target cd mv, (target, cd, mv) ∈ pl →
          ∀ d, cd.swapRecipient? = some d →
            d = swapDestination pools lastPool fromA i pool) := by
  refine ⟨?_, ?_, ?_⟩
  · intro ga c fromA amt amounts inf p0 res hne hhead hgen
    simp only [UniswapCurveCycle.generate_payloads] at hgen
    rw [if_neg hne] at hgen
    cases hpools : c.swap_pools with
    | nil => rw [hpools] at hhead; simp at hhead
    | cons a t =>
      rw [hpools] at hgen hhead
      injection hhead with hhead
      subst hhead
      cases hlast : (Pool.v2 p0 :: t).getLast? with
      | none => rw [hlast] at hgen; simp at hgen
      | some lastP =>
        rw [hlast] at hgen
        obtain ⟨L, hlegs, rfl⟩ := except_map_eq_ok _ _ _ hgen
        rfl
  · intro pools lastPool fromA i pool hlast hdist hget
    unfold swapDestination
    by_cases hobj : pool.objId = lastPool.objId
    · rw [if_pos hobj]
      by_cases hlen : i + 1 = pools.length
      · rw [if_pos hlen]
      · exact absurd hobj (hdist i pool hget hlen)
    · rw [if_neg hobj]
      have hlen : i + 1 ≠ pools.length := by
        intro hlen
        have hsame : pools.get? i = pools.getLast? := by
          rw [List.getLast?_eq_getElem?, List.get?_eq_getElem?]
          congr 1
          omega
        rw [hget, hlast] at hsame
        injection hsame with hsame
        exact hobj (by rw [hsame])
      rw [if_neg hlen]
  · intro ga fromA inf pools lastPool i pool amt pl hok target cd mv hmem d hd
    cases pool with
    | v2 p =>
      cases amt with
      | v2 a =>
        simp only [generateLegPayloads] at hok
        injection hok with hok
        subst hok
        simp only [List.mem_singleton, Prod.mk.injEq] at hmem
        obtain ⟨-, h2, -⟩ := hmem
        subst h2
        simp only [Calldata.swapRecipient?, Option.some.injEq] at hd
        exact hd.symm
      | v3 a => simp [generateLegPayloads] at hok
      | curve a => simp [generateLegPayloads] at hok
    | v3 p =>
      cases amt with
      | v3 a =>
        simp only [generateLegPayloads] at hok
        injection hok with hok
        subst hok
        simp only [List.mem_singleton, Prod.mk.injEq] at hmem
        obtain ⟨-, h2, -⟩ := hmem
        subst h2
        simp only [Calldata.swapRecipient?, Option.some.injEq] at hd
        exact hd.symm
      | v2 a => simp [generateLegPayloads] at hok
      | curve a => simp [generateLegPayloads] at hok
    | curve p =>
      cases amt with
      | curve a =>
        simp only [generateLegPayloads] at hok
        injection hok with hok
        subst hok
        rw [List.mem_append] at hmem
        rcases hmem with hmem | hmem
        · split at hmem
          · simp only [List.mem_singleton, Prod.mk.injEq] at hmem
            obtain ⟨-, h2, -⟩ := hmem
            subst h2
            simp [Calldata.swapRecipient?] at hd
          · simp at hmem
        · simp only [List.mem_singleton, Prod.mk.injEq] at hmem
          obtain ⟨-, h2, -⟩ := hmem
          subst h2
          simp [Calldata.swapRecipient?] at hd
      | v2 a => simp [generateLegPayloads] at hok
      | v3 a => simp [generateLegPayloads] at hok

/-- C7 (counterexample): the destination rule as claimed fails when a pool
object occurs both earlier and last: in the constructed cycle P, Q, P
(the same V2 pool object first and last), leg 0 is non-final and its next
pool Q is a V2 pool, yet its swap payload's destination is the sending
address rather than Q's address, because the source detects the final leg
by object identity. -/
theorem claim_C7_counterexample :
    UniswapCurveCycle.mk? tokA [.v2 pP, .v2 pQ, .v2 pP] cidC7 (some (10 ^ 18)) =
      .ok c7cycle ∧
    c7cycle.generate_payloads approvalsStub 0xFA 9 [aV2, aV2, aV2] false =
      .ok [(tokA.address, .transfer pP.address 9, 0),
           (pP.address, .v2swap 0 5 0xFA, 0),
           (pQ.address, .v2swap 0 5 pP.address, 0),
           (pP.address, .v2swap 0 5 0xFA, 0)] ∧
    c7cycle.swap_pools.get? 1 = some (.v2 pQ) ∧
    pQ.address ≠ 0xFA :=
  ⟨rfl, rfl, rfl, by decide⟩

/-- C7 (witness): the amended payload theorem applied to a concrete cycle
with pairwise-distinct pool objects — the head transfer fact and the
destination rule at leg 0 (whose next pool is the Curve pool, so the
destination is the sending address). -/
theorem claim_C7_witness :
    c2cycle.generate_payloads approvalsStub 0xFA 9 [aV2, aCu, aV2] false =
      .ok c7witnessPayloads ∧
    c7witnessPayloads.head? =
      some (c2cycle.input_token.address, .transfer poolAB2.address 9, 0) ∧
    swapDestination c2cycle.swap_pools (.v2 poolCA) 0xFA 0 (.v2 poolAB2) =
      (if 0 + 1 = c2cycle.swap_pools.length then 0xFA
       else
         match c2cycle.swap_pools.get? (0 + 1) with
         | some (.v2 np) => np.address
         | some _ => 0xFA
         | none => 0xFA) := by
  refine ⟨rfl, ?_, ?_⟩
  · exact claim_C7_amended.1 approvalsStub c2cycle 0xFA 9 [aV2, aCu, aV2] false poolAB2
      c7witnessPayloads (by decide) rfl rfl
  · refine claim_C7_amended.2.1 c2cycle.swap_pools (.v2 poolCA) 0xFA 0 (.v2 poolAB2) rfl ?_ rfl
    intro j q hjq hne
    match j, hjq with
    | 0, hjq =>
      injection hjq with hjq
      subst hjq
      decide
    | 1, hjq =>
      injection hjq with hjq
      subst hjq
      decide
    | 2, hjq => exact absurd rfl hne
    | n + 3, hjq => simp [c2cycle] at hjq

theorem except_bind_eq_ok {ε α β : Type} (e : Except ε α) (f : α → Except ε β) (b : β)
    (h : e.bind f = .ok b) : ∃ a, e = .ok a ∧ f a = .ok b := by
  cases e with
  | error err => simp [Except.bind] at h
  | ok a => exact ⟨a, rfl, by simpa [Except.bind] using h⟩

theorem buildAmountsLegs_v3_char : ∀ (legs : List (Pool × SwapVector)) (core : V3SwapCore)
    (ov : List (Nat × PoolState)) (tin : Erc20Token) (q : Int) (res : List SwapAmount)
    (ins : List Int),
    buildAmountsLegs core ov tin q legs = .ok res →
    buildLegInputs core ov q legs = .ok ins →
    ∀ i p v a, legs.get? i = some (p, v) → res.get? i = some (.v3 a) →
      (∃ p3, p = .v3 p3) ∧
      (∃ u, v = .uniswap u ∧ a.zero_for_one = u.zero_for_one) ∧
      a.sqrt_price_limit_x96 =
        (if a.zero_for_one then TickMath.MIN_SQRT_RATIO + 1
         else TickMath.MAX_SQRT_RATIO - 1) ∧
      ins.get? i = some a.amount_specified := by
  intro legs
  induction legs with
  | nil =>
    intro core ov tin q res ins h _ i p v a hleg _
    simp at hleg
  | cons leg rest ih =>
    intro core ov tin q res ins h hins i p v a hleg hres
    obtain ⟨pool, vector⟩ := leg
    simp only [buildLegInputs] at hins
    obtain ⟨out, hq, hins2⟩ := except_bind_eq_ok _ _ _ hins
    obtain ⟨ins', hins', rfl⟩ := except_map_eq_ok _ _ _ hins2
    cases pool with
    | v2 p2 =>
      cases vector with
      | uniswap u =>
        simp only [buildAmountsLegs] at h
        obtain ⟨out2, hq2, h2⟩ := except_bind_eq_ok _ _ _ h
        rw [hq] at hq2
        injection hq2 with hq2
        subst hq2
        obtain ⟨res', hrec, rfl⟩ := except_map_eq_ok _ _ _ h2
        cases i with
        | zero => simp at hres
        | succ n => exact ih core ov u.token_in out res' ins' hrec hins' n p v a hleg hres
      | curve cv => simp [buildAmountsLegs] at h
    | v3 p3 =>
      cases vector with
      | uniswap u =>
        simp only [buildAmountsLegs] at h
        obtain ⟨out2, hq2, h2⟩ := except_bind_eq_ok _ _ _ h
        rw [hq] at hq2
        injection hq2 with hq2
        subst hq2
        obtain ⟨res', hrec, rfl⟩ := except_map_eq_ok _ _ _ h2
        cases i with
        | zero =>
          simp only [List.get?, Option.some.injEq, Prod.mk.injEq] at hleg
          simp only [List.get?, Option.some.injEq, SwapAmount.v3.injEq] at hres
          obtain ⟨hp, hv⟩ := hleg
          subst hp
          subst hv
          subst hres
          exact ⟨⟨p3, rfl⟩, ⟨u, rfl, rfl⟩, rfl, rfl⟩
        | succ n => exact ih core ov u.token_in out res' ins' hrec hins' n p v a hleg hres
      | curve cv => simp [buildAmountsLegs] at h
    | curve pc =>
      cases vector with
      | curve cv =>
        simp only [buildAmountsLegs] at h
        obtain ⟨out2, hq2, h2⟩ := except_bind_eq_ok _ _ _ h
        rw [hq] at hq2
        injection hq2 with hq2
        subst hq2
        split at h2
        · obtain ⟨res', hrec, rfl⟩ := except_map_eq_ok _ _ _ h2
          cases i with
          | zero => simp at hres
          | succ n => exact ih core ov cv.token_in out res' ins' hrec hins' n p v a hleg hres
        · simp at h2
      | uniswap u => simp [buildAmountsLegs] at h

/-- C8: for every concentrated-liquidity (V3) leg of the swap-amount list
built by `_build_amounts_out`, the built Swap Amount carries the leg's
(signed) input quantity as the specified amount, the direction flag taken
from that leg's swap vector, and a price limit fixed at the extreme
representable bound for the direction — the minimum sqrt ratio plus one
when zero-for-one, the maximum sqrt ratio minus one otherwise; no other
price limit is ever set. -/
theorem claim_C8_v3_swap_amounts (core : V3SwapCore) (c : UniswapCurveCycle)
    (tin : Erc20Token) (q : Int) (ov : List (Nat × PoolState)) (res : List SwapAmount)
    (ins : List Int)
    (hbuild : UniswapCurveCycle._build_amounts_out core c tin q ov = .ok res)
    (hins : buildLegInputs core ov q (c.swap_pools.zip c._swap_vectors) = .ok ins) :
    ∀ i p v a, (c.swap_pools.zip c._swap_vectors).get? i = some (p, v) →
      res.get? i = some (.v3 a) →
      (∃ p3, p = .v3 p3) ∧
      (∃ u, v = .uniswap u ∧ a.zero_for_one = u.zero_for_one) ∧
      a.sqrt_price_limit_x96 =
        (if a.zero_for_one then TickMath.MIN_SQRT_RATIO + 1
         else TickMath.MAX_SQRT_RATIO - 1) ∧
      ins.get? i = some a.amount_specified :=
  buildAmountsLegs_v3_char (c.swap_pools.zip c._swap_vectors) core ov tin q res ins hbuild
    hins

set_option maxRecDepth 4000 in
/-- C8 (witness): the V3 swap-amount theorem applied at a concrete cycle
whose first leg is a V3 pool: the built amount for leg 0 carries the leg
input 100, the vector's direction flag, and the minimum sqrt ratio plus
one. -/
theorem claim_C8_witness :
    UniswapCurveCycle._build_amounts_out coreStub c8cycle tokA 100 [] =
      .ok [.v3 c8amountV3, .v2 { amounts := (0, 6) }] ∧
    buildLegInputs coreStub [] 100 (c8cycle.swap_pools.zip c8cycle._swap_vectors) =
      .ok [100, 7] ∧
    c8amountV3.sqrt_price_limit_x96 =
      (if c8amountV3.zero_for_one then TickMath.MIN_SQRT_RATIO + 1
       else TickMath.MAX_SQRT_RATIO - 1) ∧
    [(100 : Int), 7].get? 0 = some c8amountV3.amount_specified := by
  refine ⟨rfl, rfl, ?_, ?_⟩
  · exact (claim_C8_v3_swap_amounts coreStub c8cycle tokA 100 []
      [.v3 c8amountV3, .v2 { amounts := (0, 6) }] [100, 7] rfl rfl 0 (.v3 pV3)
      (.uniswap { token_in := tokA, token_out := tokB, zero_for_one := true }) c8amountV3
      rfl rfl).2.2.1
  · exact (claim_C8_v3_swap_amounts coreStub c8cycle tokA 100 []
      [.v3 c8amountV3, .v2 { amounts := (0, 6) }] [100, 7] rfl rfl 0 (.v3 pV3)
      (.uniswap { token_in := tokA, token_out := tokB, zero_for_one := true }) c8amountV3
      rfl rfl).2.2.2

end Degenbot
